import Mathlib

/-!
# The dndml recursive-descent parser of tryptobot

A shallow embedding of `src/dndml/dnd_parser.c` (with the token model of
`src/dnd_lexer.h`).  The C functions mutate a `parser_t` through a pointer and
print diagnostics with `err_message`; here every function is a state
transformer over `pstate` (the parser object together with the list of
diagnostics printed so far) whose result is an `outcome`:

* `ret a s`     the C function returned `a`, leaving the state `s`;
* `exited c s`  the process was terminated by `exit(c)`;
* `bad_read`    the C code read a token that is not there: the token array
                is null or the index lies outside it (no defined behaviour);
* `undefined`   the C code has no defined behaviour for another reason (a
                double `free`, an `sscanf` conversion that does not fit an
                `int`, a string copy outside its buffers);
* `out_of_fuel` the loop bound of the model was reached (an artefact of the
                model only: the three `while` loops take an iteration bound;
                the statements below hold for every bound from a stated one
                on).

C strings are lists of characters (the text before the terminating NUL).
Output written with `printf` (debug traces) is not modelled.
-/

namespace Dndml

/-! ## Tokens (`src/dnd_lexer.h`) -/

/-- Token kinds, `enum token_type` of `src/dnd_lexer.h`.  The reserved words
come first, in the order of the table `reserved_words`.
Modelled from the spec: the kind `plus_sign`, which `parse_dice_val` consumes
but the header under `src/` does not list (the spec names the punctuation
tokens `: ; [ ] +`). -/
inductive token_type where
  | eof
  | section_
  | end_section
  | field
  | stat_val
  | string_val
  | int_val
  | dice_val
  | deathsave_val
  | itemlist_val
  | item_val
  | identifier
  | colon
  | semicolon
  | open_sqr_bracket
  | close_sqr_bracket
  | plus_sign
  | int_literal
  | string_literal
  | null_val
  | syntax_error
  deriving DecidableEq, Repr

/-- A token, `token_t`: a non-owning span `[start, end)` of `src_text`. -/
structure token_t where
  src_text : List Char
  start : Nat
  end_ : Nat
  type : token_type
  deriving DecidableEq, Repr

/-! ## C library primitives used by the parser -/

/-- The value of `INT_MIN` for a 32-bit `int`. -/
def INT_MIN : Int := -2147483648

/-- The value of `INT_MAX` for a 32-bit `int`. -/
def INT_MAX : Int := 2147483647

/-- Subtraction of two `size_t` values (64 bits, wrapping). -/
def size_sub (a b : Nat) : Nat := (a + 2 ^ 64 - b % 2 ^ 64) % 2 ^ 64

/-- C `isspace` in the "C" locale. -/
def isspace (c : Char) : Bool :=
  c.toNat = 32 || (9 ≤ c.toNat && c.toNat ≤ 13)

/-- C `isdigit`. -/
def isdigit (c : Char) : Bool :=
  48 ≤ c.toNat && c.toNat ≤ 57

/-- The decimal value of the maximal run of digits at the head of a string,
continuing from the accumulated value `acc`. -/
def scan_digits : List Char → Nat → Nat
  | [], acc => acc
  | c :: cs, acc => if isdigit c then scan_digits cs (acc * 10 + (c.toNat - 48)) else acc

/-- The conversion `sscanf(s, "%d", &out)`: leading white space is skipped, an
optional sign is read, then a non-empty run of decimal digits.  `none` when no
conversion takes place (and `out` is left untouched), otherwise the
mathematical value read. -/
def sscanf_d (s : List Char) : Option Int :=
  match s.dropWhile isspace with
  | [] => none
  | c :: cs =>
    if c = '-' then
      match cs with
      | [] => none
      | d :: _ => if isdigit d then some (-(scan_digits cs 0 : Int)) else none
    else if c = '+' then
      match cs with
      | [] => none
      | d :: _ => if isdigit d then some (scan_digits cs 0 : Int) else none
    else if isdigit c then some (scan_digits (c :: cs) 0 : Int)
    else none

/-- C `strncmp(s1, s2, n)`: zero exactly when the two strings agree on their
first `n` characters (or both end, equal, before that); otherwise the
difference of the first two characters that differ, a missing character
counting as NUL. -/
def strncmp : List Char → List Char → Nat → Int
  | _, _, 0 => 0
  | [], [], _ + 1 => 0
  | [], b :: _, _ + 1 => -(b.toNat : Int)
  | a :: _, [], _ + 1 => (a.toNat : Int)
  | a :: as, b :: bs, n + 1 =>
    if a = b then strncmp as bs n else (a.toNat : Int) - (b.toNat : Int)

/-- C `strndup(s, n)`: a fresh copy of at most the first `n` characters. -/
def strndup (s : List Char) (n : Nat) : List Char := s.take n

/-- A C pointer to an owned object: null, pointing to a live object, or
dangling (the object was released with `free` and the pointer kept). -/
inductive ptr (α : Type) where
  | null
  | live (v : α)
  | dangling
  deriving DecidableEq, Repr

/-- The pointer as it is after `free(p)`: `free(NULL)` does nothing.  (A call
on a dangling pointer is a double free, which the callers below rule out or
report as `undefined`.) -/
def free {α : Type} : ptr α → ptr α
  | .null => .null
  | .live _ => .dangling
  | .dangling => .dangling

/-- The array after `p = realloc(p, (count + 1) * sizeof x); p[count] = x`,
for an array `p` of `count` elements (`realloc(NULL, n)` allocates). -/
def realloc_push {α : Type} (p : ptr (List α)) (x : α) : ptr (List α) :=
  match p with
  | .null => .live [x]
  | .live l => .live (l ++ [x])
  | .dangling => .dangling

/-! ## The document model (`dnd_charsheet.h`, `dice.h`) -/

/-- Modelled from the spec: `stat_t` of the absent `dnd_charsheet.h`, the
payload of `%stat[ability:..;mod:..]`; `INT_MIN` stands for an unset slot. -/
structure stat_t where
  ability : Int
  mod : Int
  deriving DecidableEq, Repr

/-- Modelled from the spec: `diceroll_t` of the absent `dice.h`. -/
structure diceroll_t where
  dice_ct : Int
  faces : Int
  modifier : Int
  value : Int
  deriving DecidableEq, Repr

/-- Modelled from the spec: `deathsave_t` of the absent `dnd_charsheet.h`. -/
structure deathsave_t where
  succ : Int
  fail : Int
  deriving DecidableEq, Repr

/-- Modelled from the spec: `item_t` of the absent `dnd_charsheet.h`. -/
structure item_t where
  val : ptr (List Char)
  qty : Int
  weight : Int
  deriving DecidableEq, Repr

/-- Modelled from the spec: `itemlist_t` of the absent `dnd_charsheet.h`, a
growable array of items with its length. -/
structure itemlist_t where
  items : ptr (List item_t)
  item_count : Nat
  deriving DecidableEq, Repr

/-- Modelled from the spec: `field_t` of the absent `dnd_charsheet.h`.  The
kind of the value is the token kind of its keyword (`type`), and all seven
payload members exist side by side in the one structure. -/
structure field_t where
  int_val : Int
  identifier : ptr (List Char)
  type : token_type
  stat_val : stat_t
  string_val : ptr (List Char)
  dice_val : diceroll_t
  deathsave_val : deathsave_t
  itemlist_val : itemlist_t
  item_val : item_t
  deriving DecidableEq, Repr

/-- Modelled from the spec: `section_t` of the absent `dnd_charsheet.h`. -/
structure section_t where
  identifier : ptr (List Char)
  fields : ptr (List field_t)
  field_count : Nat
  deriving DecidableEq, Repr

/-- Modelled from the spec: `charsheet_t` of the absent `dnd_charsheet.h`,
the Document. -/
structure charsheet_t where
  filename : List Char
  sections : ptr (List section_t)
  section_count : Nat
  deriving DecidableEq, Repr

/-! ## The parser object (`dnd_parser.h`) -/

/-- Modelled from the spec: `enum parser_err` of the absent `dnd_parser.h`;
`ok` is the zero value (the code tests `if (err)`). -/
inductive parser_err where
  | ok
  | parser_syntax_error
  | null_ptr_error
  deriving DecidableEq, Repr

/-- Modelled from the spec: `token_vec_t` of the absent `dnd_parser.h`: the
token array (`none` for a null pointer) and the recorded number of tokens. -/
structure token_vec_t where
  tokens : Option (List token_t)
  token_count : Nat
  deriving DecidableEq, Repr

/-- Modelled from the spec: `parser_t` of the absent `dnd_parser.h`, without
its function pointers: the token buffer and the cursor `tok_i`. -/
structure parser_t where
  src_filename : List Char
  token_vec : token_vec_t
  tok_i : Nat
  deriving DecidableEq, Repr

/-- The state a parser function runs in: the parser object `this`, and the
diagnostics printed by `err_message` so far (oldest first), each the error
code with the description of the expected object. -/
structure pstate where
  this : parser_t
  err_log : List (parser_err × String)
  deriving DecidableEq, Repr

/-- How a call ends. -/
inductive outcome (α : Type) where
  | ret (a : α) (s : pstate)
  | exited (code : Nat) (s : pstate)
  | bad_read
  | undefined
  | out_of_fuel
  deriving DecidableEq, Repr

/-- A C function of result type `α` acting on the parser state. -/
abbrev M (α : Type) := pstate → outcome α

/-- The statement `return a;`. -/
def M.pure {α : Type} (a : α) : M α := fun s => .ret a s

/-- Sequencing: run `m`, then the rest `k` of the function body. -/
def M.bind {α β : Type} (m : M α) (k : α → M β) : M β := fun s =>
  match m s with
  | .ret a s1 => k a s1
  | .exited c s1 => .exited c s1
  | .bad_read => .bad_read
  | .undefined => .undefined
  | .out_of_fuel => .out_of_fuel

/-- The token `this->token_vec.tokens[i]`, when the array is present and the
index lies inside it. -/
def tok_at (s : pstate) (i : Nat) : Option token_t :=
  match s.this.token_vec.tokens with
  | none => none
  | some toks => toks[i]?

/-- The kind of the token at index `i` of the buffer. -/
def kind_at (s : pstate) (i : Nat) : Option token_type :=
  (tok_at s i).map fun t => t.type

/-- The token under the cursor, `this->token_vec.tokens[this->tok_i]`. -/
def cur_tok (s : pstate) : Option token_t := tok_at s s.this.tok_i

/-- A direct read of `this->token_vec.tokens[this->tok_i]`. -/
def peek : M token_t := fun s =>
  match cur_tok s with
  | none => .bad_read
  | some t => .ret t s

/-- The state after `this->tok_i++`. -/
def advance (s : pstate) : pstate :=
  { s with this := { s.this with tok_i := s.this.tok_i + 1 } }

/-- The function `parser_consume`, installed as `parser_t.consume`. -/
def parser_consume (type : token_type) : M parser_err := fun s =>
  match s.this.token_vec.tokens with
  | none => .ret .null_ptr_error s
  | some toks =>
    match toks[s.this.tok_i]? with
    | none => .bad_read
    | some t =>
      if t.type = type then .ret .ok (advance s)
      else .ret .parser_syntax_error s

/-- The function `err_message`: the diagnostic is appended to the log. -/
def err_message (err : parser_err) (expected_object : String) : M Unit := fun s =>
  .ret () { s with err_log := s.err_log ++ [(err, expected_object)] }

/-- The two statements `err_message(err, str); return result;`. -/
def err_return {α : Type} (err : parser_err) (expected_object : String) (result : α) : M α :=
  M.bind (err_message err expected_object) fun _ => M.pure result

/-- The macro `CONSUME_ONE_CHAR(err, type, ptr_to_free_if_err, err_str)`
followed by the rest `k` of the function: on a failed `consume` the
diagnostic is printed, the pointer is freed and the function returns its
`result` (given here as it is once the pointer has been freed). -/
def CONSUME_ONE_CHAR {α β : Type} (type : token_type) (ptr_to_free_if_err : ptr β)
    (result : α) (err_str : String) (k : M α) : M α :=
  M.bind (parser_consume type) fun err =>
    match err with
    | .ok => k
    | _ =>
      M.bind (err_message err err_str) fun _ =>
        match ptr_to_free_if_err with
        | .dangling => fun _ => .undefined
        | _ => M.pure result

/-- The macro `CONSUME_INT_OR_NULL(out_int_ptr)` followed by the rest `k` of
the function, which receives the value of `*out_int_ptr` after the macro
(`out_int` is its value before). -/
def CONSUME_INT_OR_NULL {α : Type} (out_int : Int) (result : α) (k : Int → M α) : M α :=
  M.bind peek fun tok =>
    if tok.type = .int_literal then
      match sscanf_d (tok.src_text.drop tok.start) with
      | none => M.bind (parser_consume .int_literal) fun _ => k out_int
      | some v =>
        if INT_MIN ≤ v ∧ v ≤ INT_MAX then
          M.bind (parser_consume .int_literal) fun _ => k v
        else fun _ => .undefined
    else if tok.type ≠ .null_val then
      M.bind (parser_consume .null_val) fun _ => k out_int
    else
      err_return .parser_syntax_error "integer or NULL" result

/-- The macro `CONSUME_RESERVED_IDENTIFIER(err, identifier_str)` followed by
the rest `k` of the function, which receives the value of `err`. -/
def CONSUME_RESERVED_IDENTIFIER {α : Type} (identifier_str : String) (result : α)
    (k : parser_err → M α) : M α :=
  M.bind peek fun tok =>
    if strncmp (tok.src_text.drop tok.start) identifier_str.toList
        (size_sub tok.end_ tok.start) ≠ 0 then
      err_return .parser_syntax_error identifier_str result
    else
      M.bind (parser_consume .identifier) k

/-- The copy made of a string token in `parse_string_val` and
`parse_item_val`: `bufsize = end - start - 1` bytes are allocated, the
`bufsize - 1` characters after the first one are copied and a NUL is written
after them.  `none` when the loop writes outside the allocated bytes
(`bufsize` is 0) or reads past the NUL that ends the source text. -/
def copy_unquoted (tok : token_t) : Option (List Char) :=
  let bufsize := size_sub (size_sub tok.end_ tok.start) 1
  if 1 ≤ bufsize ∧ tok.start + bufsize ≤ tok.src_text.length + 1 then
    some ((tok.src_text.drop (tok.start + 1)).take (bufsize - 1))
  else none

/-- The null pointer passed to `CONSUME_ONE_CHAR` where nothing is to be freed. -/
def NULL : ptr Unit := .null

/-! ## The value rules -/

/-- The function `parse_stat_val`. -/
def parse_stat_val : M stat_t :=
  let result : stat_t := { ability := INT_MIN, mod := INT_MIN }
  M.bind (parser_consume .stat_val) fun _ =>
  CONSUME_ONE_CHAR .open_sqr_bracket NULL result "'['" <|
  CONSUME_RESERVED_IDENTIFIER "ability" result fun err =>
  match err with
  | .ok =>
    CONSUME_ONE_CHAR .colon NULL result "':'" <|
    CONSUME_INT_OR_NULL result.ability result fun v =>
    let result : stat_t := { result with ability := v }
    CONSUME_ONE_CHAR .semicolon NULL result "';'" <|
    CONSUME_RESERVED_IDENTIFIER "mod" result fun err =>
    match err with
    | .ok =>
      CONSUME_ONE_CHAR .colon NULL result "':'" <|
      CONSUME_INT_OR_NULL result.mod result fun v =>
      let result : stat_t := { result with mod := v }
      CONSUME_ONE_CHAR .close_sqr_bracket NULL result "']'" <|
      M.pure result
    | _ => err_return err "\"mod\"" result
  | _ => err_return err "\"ability\"" result

/-- The function `parse_string_val`. -/
def parse_string_val : M (ptr (List Char)) :=
  let result : ptr (List Char) := .null
  M.bind (parser_consume .string_val) fun _ =>
  CONSUME_ONE_CHAR .open_sqr_bracket NULL result "'['" <|
  M.bind peek fun tok =>
  if tok.type = .string_val then
    match copy_unquoted tok with
    | none => fun _ => .undefined
    | some str =>
      let result : ptr (List Char) := .live str
      CONSUME_ONE_CHAR .close_sqr_bracket NULL result "']'" <|
      M.pure result
  else
    CONSUME_ONE_CHAR .close_sqr_bracket NULL result "']'" <|
    M.pure result

/-- The function `parse_int_val`. -/
def parse_int_val : M Int :=
  let result : Int := INT_MIN
  M.bind (parser_consume .int_val) fun _ =>
  CONSUME_ONE_CHAR .open_sqr_bracket NULL result "'['" <|
  CONSUME_INT_OR_NULL result result fun result =>
  CONSUME_ONE_CHAR .close_sqr_bracket NULL result "']'" <|
  M.pure result

/-- The function `parse_dice_val`. -/
def parse_dice_val : M diceroll_t :=
  let result : diceroll_t :=
    { dice_ct := INT_MIN, faces := INT_MIN, modifier := INT_MIN, value := INT_MIN }
  M.bind (parser_consume .dice_val) fun _ =>
  CONSUME_ONE_CHAR .open_sqr_bracket NULL result "'['" <|
  CONSUME_INT_OR_NULL result.dice_ct result fun v =>
  let result : diceroll_t := { result with dice_ct := v }
  CONSUME_RESERVED_IDENTIFIER "d" result fun err =>
  match err with
  | .ok =>
    CONSUME_INT_OR_NULL result.faces result fun v =>
    let result : diceroll_t := { result with faces := v }
    CONSUME_ONE_CHAR .plus_sign NULL result "'+'" <|
    CONSUME_INT_OR_NULL result.modifier result fun v =>
    let result : diceroll_t := { result with modifier := v }
    CONSUME_ONE_CHAR .close_sqr_bracket NULL result "']'" <|
    M.pure { result with value := 0 }
  | _ => err_return err "'d'" result

/-- The function `parse_deathsave_val`. -/
def parse_deathsave_val : M deathsave_t :=
  let result : deathsave_t := { succ := INT_MIN, fail := INT_MIN }
  M.bind (parser_consume .deathsave_val) fun _ =>
  CONSUME_ONE_CHAR .open_sqr_bracket NULL result "'['" <|
  CONSUME_RESERVED_IDENTIFIER "succ" result fun err =>
  match err with
  | .ok =>
    CONSUME_ONE_CHAR .colon NULL result "':'" <|
    CONSUME_INT_OR_NULL result.succ result fun v =>
    let result : deathsave_t := { result with succ := v }
    CONSUME_ONE_CHAR .semicolon NULL result "';'" <|
    CONSUME_RESERVED_IDENTIFIER "fail" result fun err =>
    match err with
    | .ok =>
      CONSUME_ONE_CHAR .colon NULL result "':'" <|
      CONSUME_INT_OR_NULL result.fail result fun v =>
      let result : deathsave_t := { result with fail := v }
      CONSUME_ONE_CHAR .close_sqr_bracket NULL result "']'" <|
      M.pure result
    | _ => err_return err "\"fail\"" result
  | _ => err_return err "\"succ\"" result

/-- The part of `parse_item_val` after the optional string of `val:` has been
looked at (`result.val` is then null or the fresh copy): from the `';'` that
ends the `val` attribute to the closing bracket. -/
def parse_item_val_rest (result : item_t) : M item_t :=
  CONSUME_ONE_CHAR .semicolon result.val { result with val := free result.val } "';'" <|
  CONSUME_RESERVED_IDENTIFIER "qty" result fun err =>
  match err with
  | .ok =>
    CONSUME_ONE_CHAR .colon result.val { result with val := free result.val } "':'" <|
    CONSUME_INT_OR_NULL result.qty result fun v =>
    let result : item_t := { result with qty := v }
    CONSUME_ONE_CHAR .semicolon result.val { result with val := free result.val } "';'" <|
    CONSUME_RESERVED_IDENTIFIER "weight" result fun err =>
    match err with
    | .ok =>
      CONSUME_ONE_CHAR .colon result.val { result with val := free result.val } "':'" <|
      CONSUME_INT_OR_NULL result.weight result fun v =>
      let result : item_t := { result with weight := v }
      CONSUME_ONE_CHAR .close_sqr_bracket result.val
        { result with val := free result.val } "']'" <|
      M.pure result
    | _ => err_return err "\"weight\"" { result with val := .null }
  | _ => err_return err "\"qty\"" { result with val := .null }

/-- The function `parse_item_val`. -/
def parse_item_val : M item_t :=
  let result : item_t := { val := .null, qty := INT_MIN, weight := INT_MIN }
  M.bind (parser_consume .item_val) fun _ =>
  CONSUME_ONE_CHAR .open_sqr_bracket NULL result "'['" <|
  CONSUME_RESERVED_IDENTIFIER "val" result fun err =>
  match err with
  | .ok =>
    CONSUME_ONE_CHAR .colon NULL result "':'" <|
    M.bind peek fun tok =>
    if tok.type = .string_val then
      match copy_unquoted tok with
      | none => fun _ => .undefined
      | some str => parse_item_val_rest { result with val := .live str }
    else parse_item_val_rest result
  | _ => err_return err "\"val\"" result

/-- The `while` loop of `parse_itemlist_val`, running at most `fuel`
iterations. -/
def parse_itemlist_loop : Nat → itemlist_t → M itemlist_t
  | 0, _ => fun _ => .out_of_fuel
  | fuel + 1, result =>
    M.bind peek fun tok =>
    if tok.type ≠ .close_sqr_bracket then
      if tok.type = .eof then
        err_return .parser_syntax_error "']'"
          { items := free result.items, item_count := 0 }
      else
        M.bind parse_item_val fun item =>
        let result : itemlist_t :=
          { items := realloc_push result.items item, item_count := result.item_count + 1 }
        CONSUME_ONE_CHAR .semicolon NULL result "';'" <|
        parse_itemlist_loop fuel result
    else
      M.bind (parser_consume .close_sqr_bracket) fun _ => M.pure result

/-- The function `parse_itemlist_val`. -/
def parse_itemlist_val (fuel : Nat) : M itemlist_t :=
  let result : itemlist_t := { items := .null, item_count := 0 }
  M.bind (parser_consume .itemlist_val) fun _ =>
  CONSUME_ONE_CHAR .open_sqr_bracket NULL result "'['" <|
  parse_itemlist_loop fuel result

/-! ## Fields, sections, documents -/

/-- The initial value of `result` in `parse_field`: the three members named by
the initialiser, every other member zero. -/
def field_t.init : field_t :=
  { int_val := INT_MIN
    identifier := .null
    type := .syntax_error
    stat_val := { ability := 0, mod := 0 }
    string_val := .null
    dice_val := { dice_ct := 0, faces := 0, modifier := 0, value := 0 }
    deathsave_val := { succ := 0, fail := 0 }
    itemlist_val := { items := .null, item_count := 0 }
    item_val := { val := .null, qty := 0, weight := 0 } }

/-- The end of `parse_field`, after the `switch`: the `';'` is consumed; when
it is missing the identifier is freed and set to null, and the string or the
item array of the value is freed. -/
def parse_field_end (result : field_t) : M field_t :=
  M.bind (parser_consume .semicolon) fun err =>
  match err with
  | .ok => M.pure result
  | _ =>
    M.bind (err_message err "';'") fun _ =>
    let result : field_t := { result with identifier := .null }
    if result.type = .string_val then
      match result.string_val with
      | .dangling => fun _ => .undefined
      | p => M.pure { result with string_val := free p }
    else if result.type = .itemlist_val then
      match result.itemlist_val.items with
      | .dangling => fun _ => .undefined
      | p => M.pure { result with itemlist_val := { result.itemlist_val with items := free p } }
    else M.pure result

/-- The function `parse_field`; `fuel` bounds the loop of an item list. -/
def parse_field (fuel : Nat) : M field_t :=
  let result : field_t := field_t.init
  M.bind (parser_consume .field) fun err =>
  match err with
  | .ok =>
    M.bind peek fun tok =>
    if tok.type = .identifier then
      let result : field_t :=
        { result with
          identifier := .live (strndup (tok.src_text.drop tok.start) (size_sub tok.end_ tok.start)) }
      M.bind (parser_consume .identifier) fun _ =>
      CONSUME_ONE_CHAR .colon result.identifier
        { result with identifier := free result.identifier } "':'" <|
      M.bind peek fun tok =>
      let result : field_t := { result with type := tok.type }
      match tok.type with
      | .stat_val =>
        M.bind parse_stat_val fun v => parse_field_end { result with stat_val := v }
      | .string_val =>
        M.bind parse_string_val fun v => parse_field_end { result with string_val := v }
      | .int_val =>
        M.bind parse_int_val fun v => parse_field_end { result with int_val := v }
      | .dice_val =>
        M.bind parse_dice_val fun v => parse_field_end { result with dice_val := v }
      | .deathsave_val =>
        M.bind parse_deathsave_val fun v => parse_field_end { result with deathsave_val := v }
      | .itemlist_val =>
        M.bind (parse_itemlist_val fuel) fun v =>
          parse_field_end { result with itemlist_val := v }
      | .item_val =>
        M.bind parse_item_val fun v => parse_field_end { result with item_val := v }
      | _ =>
        err_return .parser_syntax_error "field value"
          { result with identifier := free result.identifier, type := .syntax_error }
    else
      err_return .parser_syntax_error "field identifier" result
  | _ => err_return err "@field" result

/-- The `while` loop of `parse_section`, running at most `fuel` iterations;
`n` bounds the loops of the fields. -/
def parse_section_loop (n : Nat) : Nat → section_t → M section_t
  | 0, _ => fun _ => .out_of_fuel
  | fuel + 1, result =>
    M.bind peek fun tok =>
    if tok.type ≠ .end_section then
      if tok.type = .eof then
        err_return .parser_syntax_error "@end-section"
          { result with fields := free result.fields, identifier := .null }
      else
        M.bind (parse_field n) fun curr_field =>
        if curr_field.type = .syntax_error then
          M.bind (err_message .parser_syntax_error "@field") fun _ =>
          fun s => .exited 1 s
        else
          let result : section_t :=
            { result with
              field_count := result.field_count + 1
              fields := realloc_push result.fields curr_field }
          CONSUME_ONE_CHAR .semicolon result.fields
            { result with fields := free result.fields } "';'" <|
          parse_section_loop n fuel result
    else
      M.bind (parser_consume .end_section) fun _ => M.pure result

/-- The function `parse_section`.  Its comment in the source: "The field
`.identifier` of this function's return value will be NULL in case of
error." -/
def parse_section (fuel : Nat) : M section_t :=
  let result : section_t := { identifier := .null, fields := .null, field_count := 0 }
  M.bind (parser_consume .section_) fun err =>
  match err with
  | .ok =>
    M.bind peek fun tok =>
    if tok.type = .identifier then
      let result : section_t :=
        { result with
          identifier := .live (strndup (tok.src_text.drop tok.start) (size_sub tok.end_ tok.start)) }
      M.bind (parser_consume .identifier) fun _ =>
      CONSUME_ONE_CHAR .colon result.identifier
        { result with identifier := free result.identifier } "':'" <|
      parse_section_loop fuel fuel result
    else
      err_return .parser_syntax_error "section identifier" result
  | _ => err_return err "@section" result

/-- The `while` loop of `parser_parse` and what follows it, running at most
`fuel` iterations; `none` is the null pointer returned on failure (the
partial document is then handed to `free_charsheet`, which is not under
`src/` and is not modelled). -/
def parser_parse_loop (n : Nat) : Nat → charsheet_t → M (Option charsheet_t)
  | 0, _ => fun _ => .out_of_fuel
  | fuel + 1, result =>
    M.bind peek fun tok =>
    if tok.type ≠ .eof then
      M.bind (parse_section n) fun sec =>
      let result : charsheet_t :=
        { result with
          section_count := result.section_count + 1
          sections := realloc_push result.sections sec }
      match sec.identifier with
      | .null => M.pure none
      | _ => parser_parse_loop n fuel result
    else
      M.bind (parser_consume .eof) fun err =>
      match err with
      | .ok => M.pure (some result)
      | _ => err_return err "end of file" none

/-- The function `parser_parse`, installed as `parser_t.parse`. -/
def parser_parse (fuel : Nat) : M (Option charsheet_t) := fun s =>
  parser_parse_loop fuel fuel
    { filename := s.this.src_filename, sections := .null, section_count := 0 } s

/-! ## Vocabulary of the statements -/

/-- The state `s` with the cursor moved to index `i`: the token buffer and the
printed diagnostics are those of `s`. -/
def at_index (s : pstate) (i : Nat) : pstate :=
  { s with this := { s.this with tok_i := i } }

/-- The span of the token lies inside its source text (whose offsets fit a
`size_t`) and its text is `txt`. -/
def has_text (t : token_t) (txt : List Char) : Prop :=
  t.end_ = t.start + txt.length ∧ t.end_ ≤ t.src_text.length ∧ t.end_ < 2 ^ 64 ∧
    (t.src_text.drop t.start).take txt.length = txt

instance (t : token_t) (txt : List Char) : Decidable (has_text t txt) := by
  unfold has_text; infer_instance

/-- The number a run of decimal digits denotes. -/
def decimal (ds : List Char) : Nat :=
  Nat.ofDigits 10 (ds.reverse.map fun c => c.toNat - 48)

/-- The token is an int-literal as the lexer scans it: its text is the
non-empty run of digits `ds`, and the run is maximal (the character after the
token, if any, is not a digit). -/
def is_int_literal (t : token_t) (ds : List Char) : Prop :=
  t.type = .int_literal ∧ has_text t ds ∧ ds ≠ [] ∧ (∀ c ∈ ds, isdigit c = true) ∧
    (t.src_text[t.end_]?).all (fun c => !isdigit c) = true

instance (t : token_t) (ds : List Char) : Decidable (is_int_literal t ds) := by
  unfold is_int_literal; infer_instance

/-- The state `s` after the diagnostics `msgs` have been printed. -/
def logged (s : pstate) (msgs : List (parser_err × String)) : pstate :=
  { s with err_log := s.err_log ++ msgs }

/-! ## Concrete inputs

Token buffers as the lexer described by the spec produces them: every token is
a span of the one source text. -/

/-- The tokens with the given spans `(start, end, kind)` over one source text. -/
def tokens_of (src : String) (spans : List (Nat × Nat × token_type)) : List token_t :=
  spans.map fun p => { src_text := src.toList, start := p.1, end_ := p.2.1, type := p.2.2 }

/-- The state in which parsing of a token buffer starts: the buffer is
present, the cursor is at index 0 and nothing has been printed. -/
def parser_on (toks : List token_t) : pstate :=
  { this :=
      { src_filename := []
        token_vec := { tokens := some toks, token_count := toks.length }
        tok_i := 0 }
    err_log := [] }

/-- Tokens of `@section Foo` followed by end-of-input: the `:` is missing. -/
def toks_no_colon : List token_t :=
  tokens_of "@section Foo"
    [(0, 8, .section_), (9, 12, .identifier), (12, 12, .eof)]

/-- Tokens of `@section Foo: @field hp: %int[10]` followed by end-of-input:
the `;` after the field is missing. -/
def toks_no_semicolon : List token_t :=
  tokens_of "@section Foo: @field hp: %int[10]"
    [(0, 8, .section_), (9, 12, .identifier), (12, 13, .colon), (14, 20, .field),
     (21, 23, .identifier), (23, 24, .colon), (25, 29, .int_val), (29, 30, .open_sqr_bracket),
     (30, 32, .int_literal), (32, 33, .close_sqr_bracket), (33, 33, .eof)]

/-- Tokens of `@section Foo: @field hp: %int[10]; @end-section`. -/
def toks_foo_hp : List token_t :=
  tokens_of "@section Foo: @field hp: %int[10]; @end-section"
    [(0, 8, .section_), (9, 12, .identifier), (12, 13, .colon), (14, 20, .field),
     (21, 23, .identifier), (23, 24, .colon), (25, 29, .int_val), (29, 30, .open_sqr_bracket),
     (30, 32, .int_literal), (32, 33, .close_sqr_bracket), (33, 34, .semicolon),
     (35, 47, .end_section), (47, 47, .eof)]

/-- Tokens of `@section Foo: @field hp: %int[10];; @end-section`: the field is
followed by two `;`. -/
def toks_foo_hp_two_semicolons : List token_t :=
  tokens_of "@section Foo: @field hp: %int[10];; @end-section"
    [(0, 8, .section_), (9, 12, .identifier), (12, 13, .colon), (14, 20, .field),
     (21, 23, .identifier), (23, 24, .colon), (25, 29, .int_val), (29, 30, .open_sqr_bracket),
     (30, 32, .int_literal), (32, 33, .close_sqr_bracket), (33, 34, .semicolon),
     (34, 35, .semicolon), (36, 48, .end_section), (48, 48, .eof)]

/-- Tokens of `%int[NULL]`. -/
def toks_int_null : List token_t :=
  tokens_of "%int[NULL]"
    [(0, 4, .int_val), (4, 5, .open_sqr_bracket), (5, 9, .null_val),
     (9, 10, .close_sqr_bracket), (10, 10, .eof)]

/-- Tokens of `@field x: %int[];`. -/
def toks_int_empty : List token_t :=
  tokens_of "@field x: %int[];"
    [(0, 6, .field), (7, 8, .identifier), (8, 9, .colon), (10, 14, .int_val),
     (14, 15, .open_sqr_bracket), (15, 16, .close_sqr_bracket), (16, 17, .semicolon),
     (17, 17, .eof)]

/-- Tokens of `%string["hello"]`. -/
def toks_string_hello : List token_t :=
  tokens_of "%string[\"hello\"]"
    [(0, 7, .string_val), (7, 8, .open_sqr_bracket), (8, 15, .string_literal),
     (15, 16, .close_sqr_bracket), (16, 16, .eof)]

/-- Tokens of `%itemlist[%item[val:"Rope";qty:1;weight:5];]`. -/
def toks_itemlist_rope : List token_t :=
  tokens_of "%itemlist[%item[val:\"Rope\";qty:1;weight:5];]"
    [(0, 9, .itemlist_val), (9, 10, .open_sqr_bracket), (10, 15, .item_val),
     (15, 16, .open_sqr_bracket), (16, 19, .identifier), (19, 20, .colon),
     (20, 26, .string_literal), (26, 27, .semicolon), (27, 30, .identifier), (30, 31, .colon),
     (31, 32, .int_literal), (32, 33, .semicolon), (33, 39, .identifier), (39, 40, .colon),
     (40, 41, .int_literal), (41, 42, .close_sqr_bracket), (42, 43, .semicolon),
     (43, 44, .close_sqr_bracket), (44, 44, .eof)]

/-- Tokens of `%itemlist[]`. -/
def toks_itemlist_empty : List token_t :=
  tokens_of "%itemlist[]"
    [(0, 9, .itemlist_val), (9, 10, .open_sqr_bracket), (10, 11, .close_sqr_bracket),
     (11, 11, .eof)]

/-- Tokens of `%dice[2d6+1]`, the separator `d` being an identifier token. -/
def toks_dice_2d6 : List token_t :=
  tokens_of "%dice[2d6+1]"
    [(0, 5, .dice_val), (5, 6, .open_sqr_bracket), (6, 7, .int_literal), (7, 8, .identifier),
     (8, 9, .int_literal), (9, 10, .plus_sign), (10, 11, .int_literal),
     (11, 12, .close_sqr_bracket), (12, 12, .eof)]

/-- Tokens of `%stat[abil:1;mod:2]`: `abil` stands where `ability` is expected. -/
def toks_stat_abil : List token_t :=
  tokens_of "%stat[abil:1;mod:2]"
    [(0, 5, .stat_val), (5, 6, .open_sqr_bracket), (6, 10, .identifier), (10, 11, .colon),
     (11, 12, .int_literal), (12, 13, .semicolon), (13, 16, .identifier), (16, 17, .colon),
     (17, 18, .int_literal), (18, 19, .close_sqr_bracket), (19, 19, .eof)]

/-- Tokens of `@field x: %int[5;`: the closing `]` is missing. -/
def toks_int_unclosed : List token_t :=
  tokens_of "@field x: %int[5;"
    [(0, 6, .field), (7, 8, .identifier), (8, 9, .colon), (10, 14, .int_val),
     (14, 15, .open_sqr_bracket), (15, 16, .int_literal), (16, 17, .semicolon), (17, 17, .eof)]

/-- Tokens of `@section S: @field x: %int[5;; @end-section`. -/
def toks_doc_int_unclosed : List token_t :=
  tokens_of "@section S: @field x: %int[5;; @end-section"
    [(0, 8, .section_), (9, 10, .identifier), (10, 11, .colon), (12, 18, .field),
     (19, 20, .identifier), (20, 21, .colon), (22, 26, .int_val), (26, 27, .open_sqr_bracket),
     (27, 28, .int_literal), (28, 29, .semicolon), (29, 30, .semicolon),
     (31, 43, .end_section), (43, 43, .eof)]

/-- Tokens of `@field x: %itemlist[;;];`: both items are empty. -/
def toks_itemlist_semis : List token_t :=
  tokens_of "@field x: %itemlist[;;];"
    [(0, 6, .field), (7, 8, .identifier), (8, 9, .colon), (10, 19, .itemlist_val),
     (19, 20, .open_sqr_bracket), (20, 21, .semicolon), (21, 22, .semicolon),
     (22, 23, .close_sqr_bracket), (23, 24, .semicolon), (24, 24, .eof)]

/-- Tokens of `@field x: %int[5] @end-section`: no `;` after the value. -/
def toks_field_no_semicolon : List token_t :=
  tokens_of "@field x: %int[5] @end-section"
    [(0, 6, .field), (7, 8, .identifier), (8, 9, .colon), (10, 14, .int_val),
     (14, 15, .open_sqr_bracket), (15, 16, .int_literal), (16, 17, .close_sqr_bracket),
     (18, 30, .end_section), (30, 30, .eof)]

/-- The kind is one of the seven value keywords that the `switch` of
`parse_field` has a case for. -/
def is_value_keyword : token_type → Bool
  | .stat_val => true
  | .string_val => true
  | .int_val => true
  | .dice_val => true
  | .deathsave_val => true
  | .itemlist_val => true
  | .item_val => true
  | _ => false

/-- Tokens of `@section Foo:` followed immediately by end-of-input. -/
def toks_unterminated : List token_t :=
  tokens_of "@section Foo:"
    [(0, 8, .section_), (9, 12, .identifier), (12, 13, .colon), (13, 13, .eof)]

/-- Tokens of `@field x: itn[5];`: the identifier `itn` stands where a value
keyword is expected. -/
def toks_unknown_kind : List token_t :=
  tokens_of "@field x: itn[5];"
    [(0, 6, .field), (7, 8, .identifier), (8, 9, .colon), (10, 13, .identifier),
     (13, 14, .open_sqr_bracket), (14, 15, .int_literal), (15, 16, .close_sqr_bracket),
     (16, 17, .semicolon), (17, 17, .eof)]

/-! ### The reserved words (`src/dnd_lexer.h`) -/

/-- The numeric value of each enumerator of `enum token_type` as
`src/dnd_lexer.h` declares it: `eof` is -1, the ten reserved words are given
the values 0 to 9 explicitly, and the enumerators after them count on from 10.
The kind `plus_sign` is not declared in that header and has no value here. -/
def enum_value : token_type → Option Int
  | .eof => some (-1)
  | .section_ => some 0
  | .end_section => some 1
  | .field => some 2
  | .stat_val => some 3
  | .string_val => some 4
  | .int_val => some 5
  | .dice_val => some 6
  | .deathsave_val => some 7
  | .itemlist_val => some 8
  | .item_val => some 9
  | .identifier => some 10
  | .colon => some 11
  | .semicolon => some 12
  | .open_sqr_bracket => some 13
  | .close_sqr_bracket => some 14
  | .int_literal => some 15
  | .string_literal => some 16
  | .null_val => some 17
  | .syntax_error => some 18
  | .plus_sign => none

/-- The keyword of each reserved-word kind, as the comment next to its
enumerator in `src/dnd_lexer.h` gives it; `none` for the other kinds. -/
def keyword_of : token_type → Option (List Char)
  | .section_ => some "@section".toList
  | .end_section => some "@end-section".toList
  | .field => some "@field".toList
  | .stat_val => some "%stat".toList
  | .string_val => some "%string".toList
  | .int_val => some "%int".toList
  | .dice_val => some "%dice".toList
  | .deathsave_val => some "%deathsaves".toList
  | .itemlist_val => some "%itemlist".toList
  | .item_val => some "%item".toList
  | _ => none

/-- The table `reserved_words` of `src/dnd_lexer.h`. -/
def reserved_words : List (List Char) :=
  [ "@section".toList,
    "@end-section".toList,
    "@field".toList,
    "%stat".toList,
    "%string".toList,
    "%int".toList,
    "%dice".toList,
    "%deathsaves".toList,
    "%itemlist".toList,
    "%item".toList ]

/-- The variable `reserved_word_count` of `src/dnd_lexer.h`. -/
def reserved_word_count : Nat := 10

/-! ### Building the token buffer (`construct_parser`) -/

/-- Modelled from the spec: the lexer, whose code is not under `src/`, as the
sequence of tokens that successive calls of `get_next_token` return (the head
is returned by the next call). -/
abbrev lexer_t := List token_t

/-- The function `add_token_to_vec`: the count is incremented, the array is
grown by `realloc` and the token is stored in its last slot.  (The array of a
null pointer is empty: the function is only called on the vector that
`construct_parser` starts from `NULL` and count 0.) -/
def add_token_to_vec (dest : token_vec_t) (token : token_t) : token_vec_t :=
  { token_count := dest.token_count + 1
    tokens := some (match dest.tokens with
      | none => [token]
      | some toks => toks ++ [token]) }

/-- The `do ... while` loop of `construct_parser`: the token vector and the
lexer as the loop leaves them; `none` when the lexer has no token left to
return.  (The line printed on `stderr` for a syntax-error token is not
modelled.) -/
def construct_loop : lexer_t → token_vec_t → Option (token_vec_t × lexer_t)
  | [], _ => none
  | current_token :: lex, token_vec =>
    if current_token.type = .syntax_error then
      some ({ token_vec with tokens := none }, lex)
    else
      let token_vec := add_token_to_vec token_vec current_token
      if current_token.type ≠ .eof then construct_loop lex token_vec
      else some (token_vec, lex)

/-- The function `construct_parser`: the parser object it fills in, and the
lexer as it leaves it. -/
def construct_parser_ (lex : lexer_t) (src_filename : List Char) : Option (parser_t × lexer_t) :=
  match construct_loop lex { tokens := none, token_count := 0 } with
  | none => none
  | some (token_vec, lex) =>
    some ({ src_filename := src_filename, token_vec := token_vec, tok_i := 0 }, lex)

/-- The tokens a lexer returns for `@section Foo ? @end-section`: the `?` is
reported as a syntax-error token after two good tokens. -/
def toks_lex_error : List token_t :=
  tokens_of "@section Foo ? @end-section"
    [(0, 8, .section_), (9, 12, .identifier), (13, 14, .syntax_error),
     (15, 27, .end_section), (27, 27, .eof)]

/-! ### Vocabulary for what every call preserves -/

/-- A relation between the state before and the state after a call that every
step of the parser respects: it is reflexive and transitive, and it holds
across `this->tok_i++` and across a printed diagnostic. -/
structure step_rel (rel : pstate → pstate → Prop) : Prop where
  refl : ∀ s, rel s s
  trans : ∀ a b c, rel a b → rel b c → rel a c
  adv : ∀ s, rel s (advance s)
  log : ∀ s err str, rel s { s with err_log := s.err_log ++ [(err, str)] }

/-- Every way the call `m` can end relates the final state to the initial one
by `rel`, and the call terminates the process only if `may_exit` holds. -/
def M.sat {α : Type} (rel : pstate → pstate → Prop) (may_exit : Prop) (m : M α) : Prop :=
  ∀ s, match m s with
    | .ret _ s1 => rel s s1
    | .exited _ s1 => may_exit ∧ rel s s1
    | .bad_read => True
    | .undefined => True
    | .out_of_fuel => True

/-- The cursor of `s` stands on the start of a field that `parse_field` takes
as far as its value rule: `@field`, an identifier, `:` and one of the seven
value keywords. -/
def field_header_ok (s : pstate) : Prop :=
  kind_at s s.this.tok_i = some .field ∧
  kind_at s (s.this.tok_i + 1) = some .identifier ∧
  kind_at s (s.this.tok_i + 2) = some .colon ∧
  (kind_at s (s.this.tok_i + 3)).map is_value_keyword = some true

instance (s : pstate) : Decidable (field_header_ok s) := by
  unfold field_header_ok; infer_instance

/-- Tokens of `@section Foo: @field x: itn[5]; @end-section`: the field has
the identifier `itn` where a value keyword is expected. -/
def toks_section_unknown_kind : List token_t :=
  tokens_of "@section Foo: @field x: itn[5]; @end-section"
    [(0, 8, .section_), (9, 12, .identifier), (12, 13, .colon), (14, 20, .field),
     (21, 22, .identifier), (22, 23, .colon), (24, 27, .identifier),
     (27, 28, .open_sqr_bracket), (28, 29, .int_literal), (29, 30, .close_sqr_bracket),
     (30, 31, .semicolon), (32, 44, .end_section), (44, 44, .eof)]

/-- Tokens of `@section A: @field x: %int[1];; @end-section @section B`
followed by end-of-input: the second section lacks its `:`. -/
def toks_two_sections : List token_t :=
  tokens_of "@section A: @field x: %int[1];; @end-section @section B"
    [(0, 8, .section_), (9, 10, .identifier), (10, 11, .colon), (12, 18, .field),
     (19, 20, .identifier), (20, 21, .colon), (22, 26, .int_val), (26, 27, .open_sqr_bracket),
     (27, 28, .int_literal), (28, 29, .close_sqr_bracket), (29, 30, .semicolon),
     (30, 31, .semicolon), (32, 44, .end_section), (45, 53, .section_), (54, 55, .identifier),
     (55, 55, .eof)]

/-- Tokens of `%int[foo]`: a stray identifier stands in the int-or-null slot. -/
def toks_int_stray : List token_t :=
  tokens_of "%int[foo]"
    [(0, 4, .int_val), (4, 5, .open_sqr_bracket), (5, 8, .identifier),
     (8, 9, .close_sqr_bracket), (9, 9, .eof)]

/-- The token buffer of the state after is the one before, and the cursor has
not moved back. -/
def cursor_kept (s s1 : pstate) : Prop :=
  s1.this.token_vec = s.this.token_vec ∧ s.this.tok_i ≤ s1.this.tok_i

/-! ### Vocabulary for the reads of the token buffer -/

/-- What a property `I` of the state needs to be kept by every step of the
parser other than a consume of the end-of-input token: it holds across
`this->tok_i++` when the token under the cursor is not end-of-input, it holds
across a printed diagnostic, and in a state that has it a token lies under
the cursor unless `bad_ok`. -/
structure inv_ok (I : pstate → Prop) (bad_ok : Prop) : Prop where
  read : ∀ s, I s → cur_tok s = none → bad_ok
  adv : ∀ s t, I s → cur_tok s = some t → t.type ≠ .eof → I (advance s)
  log : ∀ s err str, I s → I { s with err_log := s.err_log ++ [(err, str)] }

/-- Started in a state that has `I`, the call `m` ends (by a return or by
`exit`) in a state that has `I`; it reads a token that is not there only if
`bad_ok`, and it reaches the loop bound of the model only if `oof_ok`. -/
def M.safe {α : Type} (I : pstate → Prop) (bad_ok oof_ok : Prop) (m : M α) : Prop :=
  ∀ s, I s → match m s with
    | .ret _ s1 => I s1
    | .exited _ s1 => I s1
    | .bad_read => bad_ok
    | .undefined => True
    | .out_of_fuel => oof_ok

/-- The token buffer is not empty, its last token is end-of-input and it
holds no other end-of-input token. -/
def buffer_ok (toks : List token_t) : Prop :=
  toks.getLast?.map (fun t => t.type) = some .eof ∧ ∀ t ∈ toks.dropLast, t.type ≠ .eof

instance (toks : List token_t) : Decidable (buffer_ok toks) := by
  unfold buffer_ok; infer_instance

/-- The state holds the token buffer `toks` with its length as `token_count`,
and the cursor is the index of one of its tokens. -/
def in_buffer (toks : List token_t) (s : pstate) : Prop :=
  s.this.token_vec.tokens = some toks ∧ s.this.token_vec.token_count = toks.length ∧
    s.this.tok_i < s.this.token_vec.token_count

instance (toks : List token_t) (s : pstate) : Decidable (in_buffer toks s) := by
  unfold in_buffer; infer_instance

/-- The number of tokens from the cursor to the end of the token array (0
when the array is absent or the cursor is past it). -/
def room (s : pstate) : Nat :=
  match s.this.token_vec.tokens with
  | none => 0
  | some toks => toks.length - s.this.tok_i

/-- What `parser_parse` leaves behind when it returns: the token buffer is
still `toks`, and the cursor is past the last token exactly when a Document is
returned (the final consume of the end-of-input token took place); otherwise
the cursor is still the index of a token. -/
def document_post (toks : List token_t) (d : Option charsheet_t) (s1 : pstate) : Prop :=
  s1.this.token_vec.tokens = some toks ∧ s1.this.tok_i ≤ toks.length ∧
    (s1.this.tok_i = toks.length ↔ d.isSome = true)

/-- The cursor of `s1` stands further in the buffer than the cursor of `s`,
by at least one token that was there: the buffer is the same, the index is
larger and fewer tokens are left. -/
def advanced (s s1 : pstate) : Prop :=
  s1.this.token_vec = s.this.token_vec ∧ s.this.tok_i < s1.this.tok_i ∧ room s1 < room s

/-- What one iteration of a loop does in the state `s`, the loop being given
as a function of the number of iterations it may still run: either the loop
ends here, with the same outcome however many further iterations it is
allowed (and this outcome is not a lack of iterations), or it goes on to its
next iteration in a state whose cursor has advanced. -/
def iteration {α ρ : Type} (loop : Nat → ρ → M α) (result : ρ) (s : pstate) : Prop :=
  (∃ x : outcome α, x ≠ .out_of_fuel ∧ ∀ f, loop (f + 1) result s = x) ∨
  (∃ result1 s1, advanced s s1 ∧ ∀ f, loop (f + 1) result s = loop f result1 s1)

end Dndml

/-! # The chat commands (`src/tryptobot.c`) -/

namespace Tryptobot

/-- The `for` loop of `is_valid_diceroll_str` over the rest of the string:
the string as the loop leaves it (every `D` replaced by `d`) and the final
values of `d_ct`, `plus_ct` and `result`.  (The `int` counters are taken not to
overflow.) -/
def diceroll_scan : List Char → Int → Int → Int → List Char × Int × Int × Int
  | [], d_ct, plus_ct, result => ([], d_ct, plus_ct, result)
  | c :: cs, d_ct, plus_ct, result =>
    if c = 'd' then
      let r := diceroll_scan cs (d_ct + 1) plus_ct result
      (c :: r.1, r.2)
    else if c = 'D' then
      let r := diceroll_scan cs (d_ct + 1) plus_ct result
      ('d' :: r.1, r.2)
    else if c = '+' then
      let r := diceroll_scan cs d_ct (plus_ct + 1) result
      (c :: r.1, r.2)
    else if !Dndml.isdigit c then
      let r := diceroll_scan cs d_ct plus_ct 0
      (c :: r.1, r.2)
    else
      let r := diceroll_scan cs d_ct plus_ct result
      (c :: r.1, r.2)

/-- The function `is_valid_diceroll_str`: its return value and the string as
it leaves it. -/
def is_valid_diceroll_str (diceroll_str : List Char) : Int × List Char :=
  let r := diceroll_scan diceroll_str 0 0 1
  let str := r.1
  let d_ct := r.2.1
  let plus_ct := r.2.2.1
  let result := r.2.2.2
  let result := if str.head? = some 'd' then 0 else result
  let result := if d_ct ≠ 1 then 0 else result
  let result := if plus_ct > 1 then 0 else result
  (result, str)

/-! ### `cmd_calcmod` -/

/-- The counting loop of `cmd_calcmod`,
`for (int i = 1; i < ability_score; i += 2) modifier++;`, from the values `i`
and `modifier` on: the final value of `modifier`, or `none` when `modifier++`
or `i += 2` overflows an `int`. -/
def calcmod_loop (ability_score i modifier : Int) : Option Int :=
  if i < ability_score then
    if Dndml.INT_MAX < modifier + 1 then none
    else if Dndml.INT_MAX < i + 2 then none
    else calcmod_loop ability_score (i + 2) (modifier + 1)
  else some modifier
termination_by (ability_score - i).toNat
decreasing_by omega

/-- The modifier that `cmd_calcmod` computes for an ability score that passed
its test `ability_score < 1`: `modifier` starts at -5 and `i` at 1. -/
def calcmod_modifier (ability_score : Int) : Option Int :=
  calcmod_loop ability_score 1 (-5)

/-! ### `roll_dice` -/

/-- The function `random_int` for the value that the call of `rand()` returns;
the `%` of C truncates towards zero. -/
def random_int (rand_value min max : Int) : Int :=
  rand_value.tmod (max - min + 1) + min

/-- The loop of `roll_dice`, `for (int i = 0; i < dice_ct; i++)`, from the
values `i` and `value` on; the call of `rand()` in iteration `i` returns
`rand i`.  Integers are unbounded here (no `int` overflow). -/
def roll_loop (rand : Nat → Int) (dice_ct faces i value : Int) : Int :=
  if i < dice_ct then
    roll_loop rand dice_ct faces (i + 1) (value + random_int (rand i.toNat) 1 faces)
  else value
termination_by (dice_ct - i).toNat
decreasing_by omega

/-- The function `roll_dice`, for the sequence `rand` of values that the
successive calls of `rand()` return. -/
def roll_dice (rand : Nat → Int) (dice_ct faces modifier : Int) : Dndml.diceroll_t :=
  { dice_ct := dice_ct
    faces := faces
    modifier := modifier
    value := roll_loop rand dice_ct faces 0 0 + modifier }

/-! ### `handle_message` -/

/-- The loop of `handle_message` that counts the arguments, over the rest of
the message: at a space `margc` is incremented and the whole run of spaces is
skipped (the inner `while`), any other character is stepped over. -/
def count_args (msg : List Char) (margc : Int) : Int :=
  match msg with
  | [] => margc
  | c :: cs =>
    if c = ' ' then count_args (cs.dropWhile fun x => x = ' ') (margc + 1)
    else count_args cs margc
termination_by msg.length
decreasing_by
  all_goals simp_wf
  exact Nat.lt_succ_of_le (List.dropWhile_suffix _).length_le

/-- The value of `margc` in `handle_message`: the count starts at 1. -/
def margc_of (msg : List Char) : Int := count_args msg 1

/-- The strings that the successive calls `strtok(msg_copy, " ")`,
`strtok(NULL, " ")`, ... return before `NULL`: leading spaces are skipped, the
token runs from the first other character up to the next space, and the scan
goes on after it. -/
def strtok_tokens (s : List Char) : List (List Char) :=
  match s with
  | [] => []
  | c :: cs =>
    if c = ' ' then strtok_tokens cs
    else (c :: cs.takeWhile fun x => x ≠ ' ') :: strtok_tokens (cs.dropWhile fun x => x ≠ ' ')
termination_by s.length
decreasing_by
  all_goals simp_wf
  exact Nat.lt_succ_of_le (List.dropWhile_suffix _).length_le

/-- The array `margv` as the splitting loop of `handle_message` leaves it:
`margc` slots are allocated and slot `i` is written with a copy of the `i`-th
token; a slot that no token is stored into stays uninitialised (`none`). -/
def margv_of (msg : List Char) : List (Option (List Char)) :=
  (List.range (margc_of msg).toNat).map fun i => (strtok_tokens msg)[i]?

end Tryptobot

namespace Dndml

/-! ## Basic facts about the cursor -/

theorem at_index_self (s : pstate) : at_index s s.this.tok_i = s := rfl

theorem at_index_tok_i (s : pstate) (i : Nat) : (at_index s i).this.tok_i = i := rfl

theorem at_index_at_index (s : pstate) (i j : Nat) : at_index (at_index s i) j = at_index s j :=
  rfl

theorem tok_at_at_index (s : pstate) (i j : Nat) : tok_at (at_index s i) j = tok_at s j := rfl

theorem kind_at_at_index (s : pstate) (i j : Nat) : kind_at (at_index s i) j = kind_at s j :=
  rfl

theorem advance_at_index (s : pstate) (i : Nat) : advance (at_index s i) = at_index s (i + 1) :=
  rfl

theorem kind_at_eq_some {s : pstate} {i : Nat} {k : token_type} (h : kind_at s i = some k) :
    ∃ t, tok_at s i = some t ∧ t.type = k := by
  unfold kind_at at h
  cases ht : tok_at s i with
  | none => simp [ht] at h
  | some t => exact ⟨t, rfl, by simpa [ht] using h⟩

theorem tokens_of_tok_at {s : pstate} {i : Nat} {t : token_t} (h : tok_at s i = some t) :
    ∃ toks, s.this.token_vec.tokens = some toks ∧ toks[i]? = some t := by
  unfold tok_at at h
  cases hb : s.this.token_vec.tokens with
  | none => simp [hb] at h
  | some toks => exact ⟨toks, rfl, by simpa [hb] using h⟩

/-- A `consume` of the kind under the cursor succeeds and advances by one. -/
theorem parser_consume_ok {s : pstate} {i : Nat} {k : token_type}
    (h : kind_at s i = some k) :
    parser_consume k (at_index s i) = .ret .ok (at_index s (i + 1)) := by
  obtain ⟨t, ht, hk⟩ := kind_at_eq_some h
  obtain ⟨toks, hb, hi⟩ := tokens_of_tok_at ht
  have hb2 : (at_index s i).this.token_vec.tokens = some toks := hb
  simp only [parser_consume, hb2, at_index_tok_i, hi, hk, if_true, advance_at_index]

/-- A `consume` of another kind than the one under the cursor fails and
leaves the state as it is. -/
theorem parser_consume_mismatch {s : pstate} {i : Nat} {k k2 : token_type}
    (h : kind_at s i = some k2) (hne : k2 ≠ k) :
    parser_consume k (at_index s i) = .ret .parser_syntax_error (at_index s i) := by
  obtain ⟨t, ht, hk⟩ := kind_at_eq_some h
  obtain ⟨toks, hb, hi⟩ := tokens_of_tok_at ht
  have hb2 : (at_index s i).this.token_vec.tokens = some toks := hb
  simp only [parser_consume, hb2, at_index_tok_i, hi, hk, if_neg hne]

theorem peek_at {s : pstate} {i : Nat} {t : token_t} (h : tok_at s i = some t) :
    peek (at_index s i) = .ret t (at_index s i) := by
  have : cur_tok (at_index s i) = some t := h
  simp only [peek, this]

theorem CONSUME_ONE_CHAR_ok {α β : Type} {s : pstate} {i : Nat} {k : token_type}
    (h : kind_at s i = some k) (p : ptr β) (result : α) (err_str : String) (rest : M α) :
    CONSUME_ONE_CHAR k p result err_str rest (at_index s i) = rest (at_index s (i + 1)) := by
  simp only [CONSUME_ONE_CHAR, M.bind, parser_consume_ok h]

/-! ## Reading literals and attribute names -/

theorem isspace_of_isdigit {c : Char} (h : isdigit c = true) : isspace c = false := by
  simp only [isdigit, Bool.and_eq_true, decide_eq_true_eq] at h
  simp only [isspace, Bool.or_eq_false_iff, decide_eq_false_iff_not, Bool.and_eq_false_iff]
  omega

theorem ne_minus_of_isdigit {c : Char} (h : isdigit c = true) : c ≠ '-' := by
  rintro rfl
  exact absurd h (by decide)

theorem ne_plus_of_isdigit {c : Char} (h : isdigit c = true) : c ≠ '+' := by
  rintro rfl
  exact absurd h (by decide)

theorem decimal_cons (c : Char) (cs : List Char) :
    decimal (c :: cs) = decimal cs + 10 ^ cs.length * (c.toNat - 48) := by
  simp [decimal, Nat.ofDigits_append, Nat.ofDigits_singleton]

theorem scan_digits_append (ds rest : List Char) (acc : Nat)
    (hd : ∀ c ∈ ds, isdigit c = true)
    (hr : ∀ c, rest.head? = some c → isdigit c = false) :
    scan_digits (ds ++ rest) acc = acc * 10 ^ ds.length + decimal ds := by
  induction ds generalizing acc with
  | nil =>
    cases rest with
    | nil => simp [scan_digits, decimal]
    | cons r rs =>
      have := hr r rfl
      simp [scan_digits, decimal, this]
  | cons c cs ih =>
    have hc : isdigit c = true := hd c (List.mem_cons_self _ _)
    have hcs : ∀ x ∈ cs, isdigit x = true := fun x hx => hd x (List.mem_cons_of_mem _ hx)
    rw [List.cons_append, scan_digits, if_pos hc, ih _ hcs, decimal_cons, List.length_cons]
    ring

theorem sscanf_d_digits (ds rest : List Char) (hne : ds ≠ [])
    (hd : ∀ c ∈ ds, isdigit c = true)
    (hr : ∀ c, rest.head? = some c → isdigit c = false) :
    sscanf_d (ds ++ rest) = some (decimal ds : Int) := by
  cases ds with
  | nil => exact absurd rfl hne
  | cons c cs =>
    have hc : isdigit c = true := hd c (List.mem_cons_self _ _)
    have h := scan_digits_append (c :: cs) rest 0 hd hr
    simp only [List.cons_append] at h
    have hw : List.dropWhile isspace (c :: (cs ++ rest)) = c :: (cs ++ rest) := by
      rw [List.dropWhile_cons, isspace_of_isdigit hc]
      rfl
    unfold sscanf_d
    rw [List.cons_append, hw]
    simp only [if_neg (ne_minus_of_isdigit hc), if_neg (ne_plus_of_isdigit hc), if_pos hc, h]
    simp

theorem size_sub_span {a n : Nat} (h : a + n < 2 ^ 64) : size_sub (a + n) a = n := by
  unfold size_sub
  omega

theorem strncmp_prefix (txt rest : List Char) : strncmp (txt ++ rest) txt txt.length = 0 := by
  induction txt with
  | nil => simp [strncmp]
  | cons a as ih => simp [strncmp, ih]

theorem has_text_split {t : token_t} {txt : List Char} (h : has_text t txt) :
    t.src_text.drop t.start = txt ++ t.src_text.drop t.end_ := by
  obtain ⟨he, _, _, ht⟩ := h
  have := List.take_append_drop txt.length (t.src_text.drop t.start)
  rw [ht, List.drop_drop] at this
  rw [he, ← this]

theorem has_text_size {t : token_t} {txt : List Char} (h : has_text t txt) :
    size_sub t.end_ t.start = txt.length := by
  obtain ⟨he, _, hlt, _⟩ := h
  rw [he] at hlt ⊢
  exact size_sub_span hlt

theorem is_int_literal_sscanf {t : token_t} {ds : List Char} (h : is_int_literal t ds) :
    sscanf_d (t.src_text.drop t.start) = some (decimal ds : Int) := by
  obtain ⟨_, htxt, hne, hd, hmax⟩ := h
  rw [has_text_split htxt]
  refine sscanf_d_digits ds _ hne hd ?_
  intro c hc
  rw [List.head?_drop] at hc
  rw [hc] at hmax
  simpa using hmax

theorem CONSUME_INT_OR_NULL_int {α : Type} {s : pstate} {i : Nat} {t : token_t}
    {ds : List Char} (ht : tok_at s i = some t) (h : is_int_literal t ds)
    (hfit : (decimal ds : Int) ≤ INT_MAX) (out_int : Int) (result : α) (k : Int → M α) :
    CONSUME_INT_OR_NULL out_int result k (at_index s i) =
      k (decimal ds : Int) (at_index s (i + 1)) := by
  have hk : kind_at s i = some .int_literal := by simp [kind_at, ht, h.1]
  have hmin : INT_MIN ≤ (decimal ds : Int) := by
    have : (0 : Int) ≤ (decimal ds : Int) := Int.natCast_nonneg _
    unfold INT_MIN
    omega
  simp only [CONSUME_INT_OR_NULL, M.bind, peek_at ht, h.1, if_true, is_int_literal_sscanf h,
    hmin, hfit, and_self, parser_consume_ok hk]

theorem CONSUME_RESERVED_IDENTIFIER_ok {α : Type} {s : pstate} {i : Nat} {t : token_t}
    {name : String} (ht : tok_at s i = some t) (hk : t.type = .identifier)
    (htxt : has_text t name.toList) (result : α) (k : parser_err → M α) :
    CONSUME_RESERVED_IDENTIFIER name result k (at_index s i) = k .ok (at_index s (i + 1)) := by
  have hkind : kind_at s i = some .identifier := by simp [kind_at, ht, hk]
  simp only [CONSUME_RESERVED_IDENTIFIER, M.bind, peek_at ht, has_text_split htxt,
    has_text_size htxt, strncmp_prefix, ne_eq, not_true_eq_false, if_false,
    parser_consume_ok hkind]

/-! ## What a returning call has done -/

/-- What a `consume` that returns can have done. -/
theorem parser_consume_cases {k : token_type} {s s2 : pstate} {e : parser_err}
    (h : parser_consume k s = .ret e s2) :
    (e = .ok ∧ kind_at s s.this.tok_i = some k ∧ s2 = advance s) ∨
    (e ≠ .ok ∧ kind_at s s.this.tok_i ≠ some k ∧ s2 = s) := by
  unfold parser_consume at h
  unfold kind_at tok_at
  cases hb : s.this.token_vec.tokens with
  | none =>
    simp only [hb, outcome.ret.injEq] at h
    obtain ⟨rfl, rfl⟩ := h
    right
    simp
  | some toks =>
    simp only [hb] at h
    cases ht : toks[s.this.tok_i]? with
    | none => simp [ht] at h
    | some t =>
      simp only [ht] at h
      by_cases hk : t.type = k
      · rw [if_pos hk] at h
        simp only [outcome.ret.injEq] at h
        obtain ⟨rfl, rfl⟩ := h
        left
        simp [hk, ht]
      · rw [if_neg hk] at h
        simp only [outcome.ret.injEq] at h
        obtain ⟨rfl, rfl⟩ := h
        right
        simp [hk, ht]

theorem parse_field_end_cases {r f : field_t} {s1 s' : pstate}
    (h : parse_field_end r s1 = .ret f s') :
    (kind_at s1 s1.this.tok_i = some .semicolon ∧ f = r ∧ s' = advance s1) ∨
    (kind_at s1 s1.this.tok_i ≠ some .semicolon ∧ f.identifier = .null ∧ f.type = r.type ∧
      ∃ err, s' = logged s1 [(err, "';'")]) := by
  unfold parse_field_end at h
  simp only [M.bind] at h
  cases hc : parser_consume .semicolon s1 with
  | bad_read => simp [hc] at h
  | undefined => simp [hc] at h
  | out_of_fuel => simp [hc] at h
  | exited c s2 => simp [hc] at h
  | ret e s2 =>
    simp only [hc] at h
    rcases parser_consume_cases hc with ⟨rfl, hk, rfl⟩ | ⟨hne, hk, rfl⟩
    · left
      simp only [M.pure, outcome.ret.injEq] at h
      exact ⟨hk, h.1.symm, h.2.symm⟩
    · right
      refine ⟨hk, ?_⟩
      have key : ∀ e2 : parser_err, e2 ≠ .ok →
          (M.bind (err_message e2 "';'") (fun _ =>
            let result : field_t := { r with identifier := .null }
            if result.type = .string_val then
              match result.string_val with
              | .dangling => fun _ => .undefined
              | p => M.pure { result with string_val := free p }
            else if result.type = .itemlist_val then
              match result.itemlist_val.items with
              | .dangling => fun _ => .undefined
              | p => M.pure { result with itemlist_val := { result.itemlist_val with items := free p } }
            else M.pure result) s2 = .ret f s') →
          f.identifier = .null ∧ f.type = r.type ∧ ∃ err, s' = logged s2 [(err, "';'")] := by
        intro e2 _ h2
        simp only [M.bind, err_message, M.pure] at h2
        by_cases h1 : r.type = .string_val
        · simp only [h1, if_true] at h2
          cases hp : r.string_val <;> simp only [hp, outcome.ret.injEq] at h2
          · obtain ⟨rfl, rfl⟩ := h2; exact ⟨rfl, h1.symm, _, rfl⟩
          · obtain ⟨rfl, rfl⟩ := h2; exact ⟨rfl, h1.symm, _, rfl⟩
          · exact absurd h2 (by simp)
        · simp only [h1, if_false] at h2
          by_cases h3 : r.type = .itemlist_val
          · simp only [h3, if_true] at h2
            cases hp : r.itemlist_val.items <;> simp only [hp, outcome.ret.injEq] at h2
            · obtain ⟨rfl, rfl⟩ := h2; exact ⟨rfl, h3.symm, _, rfl⟩
            · obtain ⟨rfl, rfl⟩ := h2; exact ⟨rfl, h3.symm, _, rfl⟩
            · exact absurd h2 (by simp)
          · simp only [h3, if_false, outcome.ret.injEq] at h2
            obtain ⟨rfl, rfl⟩ := h2; exact ⟨rfl, rfl, _, rfl⟩
      cases e with
      | ok => exact absurd rfl hne
      | parser_syntax_error => exact key _ hne h
      | null_ptr_error => exact key _ hne h

theorem bind_ret {α β : Type} {m : M α} {k : α → M β} {s s' : pstate} {b : β}
    (h : M.bind m k s = .ret b s') : ∃ a s1, m s = .ret a s1 ∧ k a s1 = .ret b s' := by
  unfold M.bind at h
  cases hm : m s with
  | ret a s1 => rw [hm] at h; exact ⟨a, s1, rfl, h⟩
  | exited c s1 => rw [hm] at h; exact absurd h (by simp)
  | bad_read => rw [hm] at h; exact absurd h (by simp)
  | undefined => rw [hm] at h; exact absurd h (by simp)
  | out_of_fuel => rw [hm] at h; exact absurd h (by simp)

theorem err_return_ret {α : Type} {err : parser_err} {str : String} {result b : α}
    {s s' : pstate} (h : err_return err str result s = .ret b s') :
    b = result ∧ s' = logged s [(err, str)] := by
  simp only [err_return, M.bind, err_message, M.pure, outcome.ret.injEq] at h
  exact ⟨h.1.symm, h.2.symm⟩

theorem CONSUME_ONE_CHAR_ret {α β : Type} {type : token_type} {p : ptr β} {result b : α}
    {str : String} {k : M α} {s s' : pstate}
    (h : CONSUME_ONE_CHAR type p result str k s = .ret b s') :
    (kind_at s s.this.tok_i = some type ∧ k (advance s) = .ret b s') ∨
    (kind_at s s.this.tok_i ≠ some type ∧ b = result ∧
      ∃ err, s' = logged s [(err, str)]) := by
  unfold CONSUME_ONE_CHAR at h
  obtain ⟨e, s1, hc, h⟩ := bind_ret h
  rcases parser_consume_cases hc with ⟨rfl, hk, rfl⟩ | ⟨hne, hk, rfl⟩
  · exact Or.inl ⟨hk, h⟩
  · right
    refine ⟨hk, ?_⟩
    cases e with
    | ok => exact absurd rfl hne
    | parser_syntax_error =>
      simp only [M.bind, err_message] at h
      cases p <;> simp only [M.pure, outcome.ret.injEq] at h
      · exact ⟨h.1.symm, _, h.2.symm⟩
      · exact ⟨h.1.symm, _, h.2.symm⟩
      · exact absurd h (by simp)
    | null_ptr_error =>
      simp only [M.bind, err_message] at h
      cases p <;> simp only [M.pure, outcome.ret.injEq] at h
      · exact ⟨h.1.symm, _, h.2.symm⟩
      · exact ⟨h.1.symm, _, h.2.symm⟩
      · exact absurd h (by simp)

theorem peek_ret {t : token_t} {s s' : pstate} (h : peek s = .ret t s') :
    s' = s ∧ tok_at s s.this.tok_i = some t := by
  unfold peek cur_tok at h
  cases ht : tok_at s s.this.tok_i with
  | none => simp [ht] at h
  | some t2 =>
    simp only [ht, outcome.ret.injEq] at h
    exact ⟨h.2.symm, by rw [h.1]⟩

/-- A field that `parse_field` returns with a kind other than `syntax_error`
went through the whole rule: its identifier was copied, its value rule ran,
and the end of the rule (the `';'`) decided the result. -/
theorem parse_field_reaches_end {fuel : Nat} {s s' : pstate} {f : field_t}
    (h : parse_field fuel s = .ret f s') (hk : f.type ≠ .syntax_error) :
    ∃ r s1 name, r.identifier = .live name ∧ parse_field_end r s1 = .ret f s' := by
  unfold parse_field at h
  obtain ⟨e, s1, _, h⟩ := bind_ret h
  cases e with
  | parser_syntax_error => exact absurd (err_return_ret h).1 (by rintro rfl; exact hk rfl)
  | null_ptr_error => exact absurd (err_return_ret h).1 (by rintro rfl; exact hk rfl)
  | ok =>
    simp only at h
    obtain ⟨tok, s2, _, h⟩ := bind_ret h
    by_cases hid : tok.type = .identifier
    · simp only [hid, if_true] at h
      obtain ⟨_, s3, _, h⟩ := bind_ret h
      rcases CONSUME_ONE_CHAR_ret h with ⟨_, h⟩ | ⟨_, rfl, _⟩
      · obtain ⟨tok2, s4, _, h⟩ := bind_ret h
        cases htt : tok2.type <;> simp only [htt] at h <;>
          first
          | (obtain ⟨v, s5, _, h⟩ := bind_ret h
             exact ⟨_, s5, _, rfl, h⟩)
          | exact absurd (err_return_ret h).1 (by rintro rfl; exact hk rfl)
      · exact absurd rfl hk
    · simp only [hid, if_false] at h
      exact absurd (err_return_ret h).1 (by rintro rfl; exact hk rfl)

/-! ## Claims -/

/-- C1 (the code at the failing inputs): the claim that `parser_parse` returns
null whenever a section failed to parse does not hold of the code.  For the
tokens of `@section Foo` (the `:` is missing) `parse_section` fails on the
`:`, frees the identifier and returns the section with the pointer not reset
to null; `parser_parse` (any loop bound from 2 on) takes the section for a
good one, finds end-of-input and returns a Document of one section.  The same
happens for `@section Foo: @field hp: %int[10]`, whose field lacks its `;`. -/
theorem parser_parse_document_after_failed_section (k : Nat) :
    parse_section (k + 1) (parser_on toks_no_colon) =
      .ret { identifier := .dangling, fields := .null, field_count := 0 }
        (logged (at_index (parser_on toks_no_colon) 2) [(.parser_syntax_error, "':'")]) ∧
    parser_parse (k + 2) (parser_on toks_no_colon) =
      .ret (some { filename := []
                   sections := .live [{ identifier := .dangling, fields := .null,
                                        field_count := 0 }]
                   section_count := 1 })
        (logged (at_index (parser_on toks_no_colon) 3) [(.parser_syntax_error, "':'")]) ∧
    parser_parse (k + 2) (parser_on toks_no_semicolon) =
      .ret (some { filename := []
                   sections := .live [{ identifier := .live ['F', 'o', 'o'],
                                        fields := .dangling, field_count := 1 }]
                   section_count := 1 })
        (logged (at_index (parser_on toks_no_semicolon) 11)
          [(.parser_syntax_error, "';'"), (.parser_syntax_error, "';'")]) :=
  ⟨rfl, rfl, rfl⟩

/-- C2 (the code at the failing input): for the tokens of
`@section Foo: @field hp: %int[10]; @end-section` followed by end-of-input,
`parser_parse` (any loop bound from 2 on) returns null, not a Document:
`parse_field` consumes the `;` of the field, `parse_section` then asks for a
second `;`, finds `@end-section` and gives up with the cursor on it, and the
next call of `parse_section` fails on `@section`.  (Only with a second `;`
after the field does the code return the Document of the claim.) -/
theorem parser_parse_foo_hp_null (k : Nat) :
    parser_parse (k + 2) (parser_on toks_foo_hp) =
      .ret none
        (logged (at_index (parser_on toks_foo_hp) 11)
          [(.parser_syntax_error, "';'"), (.parser_syntax_error, "@section")]) ∧
    parser_parse (k + 2) (parser_on toks_foo_hp_two_semicolons) =
      .ret (some
          { filename := []
            sections := .live
              [{ identifier := .live ['F', 'o', 'o']
                 fields := .live
                   [{ field_t.init with
                      identifier := .live ['h', 'p'], type := .int_val, int_val := 10 }]
                 field_count := 1 }]
            section_count := 1 })
        (at_index (parser_on toks_foo_hp_two_semicolons) 14) :=
  ⟨rfl, rfl⟩

/-- C3 (the code at the failing input): for the tokens of `%int[NULL]`,
`parse_int_val` prints "integer or NULL expected" and returns with the cursor
still on the `NULL` token (index 2): neither `NULL` nor the closing bracket is
consumed.  The returned value is `INT_MIN`, as at the start of the rule. -/
theorem parse_int_val_null_rejected :
    parse_int_val (parser_on toks_int_null) =
      .ret INT_MIN
        (logged (at_index (parser_on toks_int_null) 2)
          [(.parser_syntax_error, "integer or NULL")]) :=
  rfl

/-- C4 (the code at the failing input): for the tokens of `@field x: %int[];`
`parse_field` succeeds: it prints no diagnostic, consumes all seven tokens and
returns the field `x` of kind `%int` whose value is the unset value
`INT_MIN`. -/
theorem parse_field_int_empty_accepted (fuel : Nat) :
    parse_field fuel (parser_on toks_int_empty) =
      .ret { field_t.init with identifier := .live ['x'], type := .int_val, int_val := INT_MIN }
        (at_index (parser_on toks_int_empty) 7) :=
  rfl

/-- C5 (the code at the failing input): for the tokens of `%string["hello"]`
`parse_string_val` does not copy the literal (it tests the token for the kind
`string_val` of the keyword `%string`, and the literal has the kind
`string_literal`), asks for `]`, and returns the null string with the cursor
still on the literal (index 2). -/
theorem parse_string_val_literal_rejected :
    parse_string_val (parser_on toks_string_hello) =
      .ret .null
        (logged (at_index (parser_on toks_string_hello) 2) [(.parser_syntax_error, "']'")]) :=
  rfl

/-- C6 (the code at the failing input): for the tokens of
`%itemlist[%item[val:"Rope";qty:1;weight:5];]`, `parse_itemlist_val` (any
positive loop bound) stops with the cursor on the string literal (index 6 of
18 tokens): `parse_item_val` skips the literal as in C5, fails on the `;` and
returns an item with no `val` and unset `qty` and `weight`, which is stored
as the only element before the list rule fails on the same `;`. -/
theorem parse_itemlist_val_rope_stuck (k : Nat) :
    parse_itemlist_val (k + 1) (parser_on toks_itemlist_rope) =
      .ret { items := .live [{ val := .null, qty := INT_MIN, weight := INT_MIN }],
             item_count := 1 }
        (logged (at_index (parser_on toks_itemlist_rope) 6)
          [(.parser_syntax_error, "';'"), (.parser_syntax_error, "';'")]) :=
  rfl

/-- C7: for every parser state whose cursor stands on the three tokens
`%itemlist`, `[`, `]`, the rule `parse_itemlist_val` (with any positive loop
bound) returns the empty item list (null array, item count 0), prints no
diagnostic and leaves the cursor exactly three tokens further: the closing
bracket is tested before any item is attempted. -/
theorem parse_itemlist_val_empty (fuel : Nat) (s : pstate)
    (h0 : kind_at s s.this.tok_i = some .itemlist_val)
    (h1 : kind_at s (s.this.tok_i + 1) = some .open_sqr_bracket)
    (h2 : kind_at s (s.this.tok_i + 2) = some .close_sqr_bracket) :
    parse_itemlist_val (fuel + 1) s =
      .ret { items := .null, item_count := 0 } (at_index s (s.this.tok_i + 3)) := by
  obtain ⟨t2, ht2, hk2⟩ := kind_at_eq_some h2
  have hs : s = at_index s s.this.tok_i := rfl
  generalize s.this.tok_i = i at *
  rw [hs]
  simp only [parse_itemlist_val, M.bind, parser_consume_ok h0, CONSUME_ONE_CHAR_ok h1,
    parse_itemlist_loop, peek_at ht2, hk2, ne_eq, not_true_eq_false, if_false,
    parser_consume_ok h2, M.pure]
  rfl

/-- Witness of C7: the tokens of `%itemlist[]`. -/
theorem parse_itemlist_val_empty_witness :
    parse_itemlist_val 1 (parser_on toks_itemlist_empty) =
      .ret { items := .null, item_count := 0 } (at_index (parser_on toks_itemlist_empty) 3) :=
  parse_itemlist_val_empty 0 (parser_on toks_itemlist_empty) (by decide) (by decide) (by decide)

/-- C8: for every parser state whose cursor stands on the eight tokens
`%dice` `[` a `d` b `+` c `]`, where a, b, c are int-literal tokens (maximal
digit runs) whose values fit an `int` and `d` is an identifier token with the
text `d`, the rule `parse_dice_val` returns the dice value with count a, faces
b, modifier c and value 0, prints no diagnostic and leaves the cursor eight
tokens further. -/
theorem parse_dice_val_ok (s : pstate) (ta td tb tc : token_t) (da db dc : List Char)
    (h0 : kind_at s s.this.tok_i = some .dice_val)
    (h1 : kind_at s (s.this.tok_i + 1) = some .open_sqr_bracket)
    (h2 : tok_at s (s.this.tok_i + 2) = some ta) (ha : is_int_literal ta da)
    (h3 : tok_at s (s.this.tok_i + 3) = some td) (hd : td.type = .identifier)
    (hdt : has_text td ['d'])
    (h4 : tok_at s (s.this.tok_i + 4) = some tb) (hb : is_int_literal tb db)
    (h5 : kind_at s (s.this.tok_i + 5) = some .plus_sign)
    (h6 : tok_at s (s.this.tok_i + 6) = some tc) (hc : is_int_literal tc dc)
    (h7 : kind_at s (s.this.tok_i + 7) = some .close_sqr_bracket)
    (fa : (decimal da : Int) ≤ INT_MAX) (fb : (decimal db : Int) ≤ INT_MAX)
    (fc : (decimal dc : Int) ≤ INT_MAX) :
    parse_dice_val s =
      .ret { dice_ct := decimal da, faces := decimal db, modifier := decimal dc, value := 0 }
        (at_index s (s.this.tok_i + 8)) := by
  have hs : parse_dice_val s = parse_dice_val (at_index s s.this.tok_i) := rfl
  rw [hs]
  generalize s.this.tok_i = i at *
  have hdt2 : has_text td "d".toList := hdt
  simp only [parse_dice_val, M.bind, parser_consume_ok h0, CONSUME_ONE_CHAR_ok h1,
    CONSUME_INT_OR_NULL_int h2 ha fa, CONSUME_RESERVED_IDENTIFIER_ok h3 hd hdt2,
    CONSUME_INT_OR_NULL_int h4 hb fb, CONSUME_ONE_CHAR_ok h5,
    CONSUME_INT_OR_NULL_int h6 hc fc, CONSUME_ONE_CHAR_ok h7, M.pure]

/-- Witness of C8: the tokens of `%dice[2d6+1]` give count 2, faces 6,
modifier 1. -/
theorem parse_dice_val_ok_witness :
    parse_dice_val (parser_on toks_dice_2d6) =
      .ret { dice_ct := 2, faces := 6, modifier := 1, value := 0 }
        (at_index (parser_on toks_dice_2d6) 8) :=
  parse_dice_val_ok (parser_on toks_dice_2d6)
    { src_text := "%dice[2d6+1]".toList, start := 6, end_ := 7, type := .int_literal }
    { src_text := "%dice[2d6+1]".toList, start := 7, end_ := 8, type := .identifier }
    { src_text := "%dice[2d6+1]".toList, start := 8, end_ := 9, type := .int_literal }
    { src_text := "%dice[2d6+1]".toList, start := 10, end_ := 11, type := .int_literal }
    ['2'] ['6'] ['1']
    (by decide) (by decide) (by decide) (by decide) (by decide) (by decide) (by decide)
    (by decide) (by decide) (by decide) (by decide) (by decide) (by decide) (by decide)
    (by decide) (by decide)

/-- C9 (the code at the failing input): for the tokens of
`%stat[abil:1;mod:2]`, `parse_stat_val` accepts the identifier `abil` where
`ability` is expected (`strncmp` compares only the four characters of the
token), consumes it and all other tokens, prints no diagnostic and returns
ability 1, mod 2. -/
theorem parse_stat_val_accepts_abil :
    parse_stat_val (parser_on toks_stat_abil) =
      .ret { ability := 1, mod := 2 } (at_index (parser_on toks_stat_abil) 10) :=
  rfl

/-- C10 (the code at the failing inputs): the field `@field x: %int[5;`
lacks its closing `]`; `parse_int_val` prints "']' expected" and returns the
value 5 read so far, and `parse_field`, which has no way to see that the
value rule failed, consumes the `;` and returns the field `x` of kind `%int`
with value 5 and its identifier in place.  The document
`@section S: @field x: %int[5;; @end-section` is parsed into a Document
holding that field.  Likewise `@field x: %itemlist[;;];` is returned as a
list of two items, "'[' expected" being printed for each. -/
theorem malformed_payload_accepted :
    parse_field 1 (parser_on toks_int_unclosed) =
      .ret { field_t.init with identifier := .live ['x'], type := .int_val, int_val := 5 }
        (logged (at_index (parser_on toks_int_unclosed) 7) [(.parser_syntax_error, "']'")]) ∧
    parser_parse 2 (parser_on toks_doc_int_unclosed) =
      .ret (some
          { filename := []
            sections := .live
              [{ identifier := .live ['S']
                 fields := .live
                   [{ field_t.init with identifier := .live ['x'], type := .int_val, int_val := 5 }]
                 field_count := 1 }]
            section_count := 1 })
        (logged (at_index (parser_on toks_doc_int_unclosed) 13)
          [(.parser_syntax_error, "']'")]) ∧
    parse_field 3 (parser_on toks_itemlist_semis) =
      .ret { field_t.init with
             identifier := .live ['x']
             type := .itemlist_val
             itemlist_val :=
               { items := .live [{ val := .null, qty := INT_MIN, weight := INT_MIN },
                                 { val := .null, qty := INT_MIN, weight := INT_MIN }]
                 item_count := 2 } }
        (logged (at_index (parser_on toks_itemlist_semis) 9)
          [(.parser_syntax_error, "'['"), (.parser_syntax_error, "'['")]) :=
  ⟨rfl, rfl, rfl⟩

/-- C11: for every parser state whose cursor stands on the four tokens
`@section`, an identifier (any section name), `:` and end-of-input,
`parse_section` (any positive loop bound) prints "@end-section expected" and
returns a section with a null identifier, the cursor left on the
end-of-input token, and `parser_parse` started there returns null: no
Document is handed to the caller. -/
theorem parse_section_unterminated (fuel : Nat) (s : pstate) (t : token_t)
    (h0 : kind_at s s.this.tok_i = some .section_)
    (h1 : tok_at s (s.this.tok_i + 1) = some t) (hk : t.type = .identifier)
    (h2 : kind_at s (s.this.tok_i + 2) = some .colon)
    (h3 : kind_at s (s.this.tok_i + 3) = some .eof) :
    parse_section (fuel + 1) s =
      .ret { identifier := .null, fields := .null, field_count := 0 }
        (logged (at_index s (s.this.tok_i + 3)) [(.parser_syntax_error, "@end-section")]) ∧
    parser_parse (fuel + 1) s =
      .ret none
        (logged (at_index s (s.this.tok_i + 3)) [(.parser_syntax_error, "@end-section")]) := by
  obtain ⟨t0, ht0, hk0⟩ := kind_at_eq_some h0
  obtain ⟨t3, ht3, hk3⟩ := kind_at_eq_some h3
  have hk1 : kind_at s (s.this.tok_i + 1) = some .identifier := by simp [kind_at, h1, hk]
  have hsec : parse_section (fuel + 1) s =
      .ret { identifier := .null, fields := .null, field_count := 0 }
        (logged (at_index s (s.this.tok_i + 3)) [(.parser_syntax_error, "@end-section")]) := by
    have hs : parse_section (fuel + 1) s = parse_section (fuel + 1) (at_index s s.this.tok_i) :=
      rfl
    rw [hs]
    generalize s.this.tok_i = i at *
    simp only [parse_section, M.bind, parser_consume_ok h0, peek_at h1, hk, if_true,
      parser_consume_ok hk1, CONSUME_ONE_CHAR_ok h2, parse_section_loop, peek_at ht3, hk3]
    rfl
  refine ⟨hsec, ?_⟩
  have hp : peek s = .ret t0 s := peek_at (s := s) ht0
  have hne : token_type.section_ ≠ token_type.eof := by decide
  simp only [parser_parse, parser_parse_loop, M.bind, hp, hk0, if_pos hne, hsec, M.pure]

/-- Witness of C11: the tokens of `@section Foo:` followed by end-of-input. -/
theorem parse_section_unterminated_witness :
    parse_section 1 (parser_on toks_unterminated) =
      .ret { identifier := .null, fields := .null, field_count := 0 }
        (logged (at_index (parser_on toks_unterminated) 3)
          [(.parser_syntax_error, "@end-section")]) ∧
    parser_parse 1 (parser_on toks_unterminated) =
      .ret none
        (logged (at_index (parser_on toks_unterminated) 3)
          [(.parser_syntax_error, "@end-section")]) :=
  parse_section_unterminated 0 (parser_on toks_unterminated)
    { src_text := "@section Foo:".toList, start := 9, end_ := 12, type := .identifier }
    (by decide) (by decide) (by decide) (by decide) (by decide)

/-- C12: for every parser state whose cursor stands on `@field`, an
identifier, `:` and a token that is not one of the seven value keywords,
`parse_field` prints "field value expected" and returns a field of kind
`syntax_error` (its identifier freed), and the cursor is left on the offending
token: neither it nor any later token is consumed. -/
theorem parse_field_unknown_value_kind (fuel : Nat) (s : pstate) (t tv : token_t)
    (h0 : kind_at s s.this.tok_i = some .field)
    (h1 : tok_at s (s.this.tok_i + 1) = some t) (hk : t.type = .identifier)
    (h2 : kind_at s (s.this.tok_i + 2) = some .colon)
    (h3 : tok_at s (s.this.tok_i + 3) = some tv) (hv : is_value_keyword tv.type = false) :
    parse_field fuel s =
      .ret { field_t.init with identifier := .dangling, type := .syntax_error }
        (logged (at_index s (s.this.tok_i + 3)) [(.parser_syntax_error, "field value")]) := by
  have hk1 : kind_at s (s.this.tok_i + 1) = some .identifier := by simp [kind_at, h1, hk]
  have hs : parse_field fuel s = parse_field fuel (at_index s s.this.tok_i) := rfl
  rw [hs]
  generalize s.this.tok_i = i at *
  simp only [parse_field, M.bind, parser_consume_ok h0, peek_at h1, hk, if_true,
    parser_consume_ok hk1, CONSUME_ONE_CHAR_ok h2, peek_at h3]
  cases htt : tv.type <;> simp only [htt, is_value_keyword] at hv ⊢ <;>
    first
    | rfl
    | exact absurd hv (by decide)

/-- Witness of C12: the tokens of `@field x: itn[5];`. -/
theorem parse_field_unknown_value_kind_witness :
    parse_field 0 (parser_on toks_unknown_kind) =
      .ret { field_t.init with identifier := .dangling, type := .syntax_error }
        (logged (at_index (parser_on toks_unknown_kind) 3)
          [(.parser_syntax_error, "field value")]) :=
  parse_field_unknown_value_kind 0 (parser_on toks_unknown_kind)
    { src_text := "@field x: itn[5];".toList, start := 7, end_ := 8, type := .identifier }
    { src_text := "@field x: itn[5];".toList, start := 10, end_ := 13, type := .identifier }
    (by decide) (by decide) (by decide) (by decide) (by decide) (by decide)

/-- C16: for every parser state and expected kind, when the token buffer is
present and a token lies under the cursor, `parser_consume` returns `ok` and
moves the cursor forward by exactly one if that token has the expected kind,
and otherwise returns `parser_syntax_error` and leaves the whole state as it
is; advancing changes neither the token buffer nor the diagnostics; when the
token buffer is absent it returns `null_ptr_error`. -/
theorem parser_consume_spec (s : pstate) (type : token_type) :
    (∀ t, cur_tok s = some t → t.type = type →
      parser_consume type s = .ret .ok (advance s)) ∧
    (∀ t, cur_tok s = some t → t.type ≠ type →
      parser_consume type s = .ret .parser_syntax_error s) ∧
    (advance s).this.tok_i = s.this.tok_i + 1 ∧
    (advance s).this.token_vec = s.this.token_vec ∧
    (advance s).err_log = s.err_log ∧
    (s.this.token_vec.tokens = none → parser_consume type s = .ret .null_ptr_error s) := by
  refine ⟨?_, ?_, rfl, rfl, rfl, ?_⟩
  · intro t ht hk
    have h : kind_at s s.this.tok_i = some type := by
      simp only [kind_at]
      rw [show tok_at s s.this.tok_i = some t from ht, Option.map_some', hk]
    exact parser_consume_ok (s := s) h
  · intro t ht hk
    have h : kind_at s s.this.tok_i = some t.type := by
      simp only [kind_at]
      rw [show tok_at s s.this.tok_i = some t from ht, Option.map_some']
    exact parser_consume_mismatch (s := s) h hk
  · intro hb
    simp only [parser_consume, hb]

/-- Witness of C16: on the tokens of `%itemlist[]`, consuming `%itemlist` at
index 0 succeeds and moves to index 1, consuming `]` there fails and changes
nothing, and without a buffer the null-pointer error is returned. -/
theorem parser_consume_spec_witness :
    parser_consume .itemlist_val (parser_on toks_itemlist_empty) =
      .ret .ok (at_index (parser_on toks_itemlist_empty) 1) ∧
    parser_consume .close_sqr_bracket (parser_on toks_itemlist_empty) =
      .ret .parser_syntax_error (parser_on toks_itemlist_empty) ∧
    parser_consume .eof
        { this := { src_filename := [], token_vec := { tokens := none, token_count := 0 },
                    tok_i := 0 },
          err_log := [] } =
      .ret .null_ptr_error
        { this := { src_filename := [], token_vec := { tokens := none, token_count := 0 },
                    tok_i := 0 },
          err_log := [] } :=
  ⟨(parser_consume_spec (parser_on toks_itemlist_empty) .itemlist_val).1
      { src_text := "%itemlist[]".toList, start := 0, end_ := 9, type := .itemlist_val }
      (by decide) (by decide),
   (parser_consume_spec (parser_on toks_itemlist_empty) .close_sqr_bracket).2.1
      { src_text := "%itemlist[]".toList, start := 0, end_ := 9, type := .itemlist_val }
      (by decide) (by decide),
   (parser_consume_spec _ .eof).2.2.2.2.2 rfl⟩

/-- C17: each of the ten reserved-word kinds has a numeric value that is an
index into `reserved_words`, below `reserved_word_count`, and the string at
that index is the keyword of the kind; exactly ten kinds have a keyword, and
`reserved_word_count` is 10, the length of the table. -/
theorem reserved_words_indexed_by_kind :
    (∀ k w, keyword_of k = some w →
      ∃ n : Nat, enum_value k = some (n : Int) ∧ n < reserved_word_count ∧
        reserved_words[n]? = some w) ∧
    ([token_type.section_, .end_section, .field, .stat_val, .string_val, .int_val, .dice_val,
      .deathsave_val, .itemlist_val, .item_val].map keyword_of =
        reserved_words.map some) ∧
    (∀ k, (keyword_of k).isSome = true →
      k ∈ [token_type.section_, .end_section, .field, .stat_val, .string_val, .int_val,
        .dice_val, .deathsave_val, .itemlist_val, .item_val]) ∧
    reserved_word_count = 10 ∧ reserved_words.length = reserved_word_count := by
  refine ⟨?_, by decide, ?_, rfl, rfl⟩
  · intro k w h
    cases k <;> simp only [keyword_of] at h <;> first
      | exact Option.noConfusion h
      | (obtain rfl := Option.some.inj h
         first
         | exact ⟨0, rfl, by decide, rfl⟩
         | exact ⟨1, rfl, by decide, rfl⟩
         | exact ⟨2, rfl, by decide, rfl⟩
         | exact ⟨3, rfl, by decide, rfl⟩
         | exact ⟨4, rfl, by decide, rfl⟩
         | exact ⟨5, rfl, by decide, rfl⟩
         | exact ⟨6, rfl, by decide, rfl⟩
         | exact ⟨7, rfl, by decide, rfl⟩
         | exact ⟨8, rfl, by decide, rfl⟩
         | exact ⟨9, rfl, by decide, rfl⟩)
  · intro k h
    cases k <;> first
      | exact absurd h (by decide)
      | decide

/-- The pairs of table entries checked one by one: a reserved word that is a
proper prefix of another stands at a larger index. -/
theorem reserved_words_prefix_pairs :
    ∀ i < 10, ∀ j < 10,
      reserved_words[i]?.getD [] <+: reserved_words[j]?.getD [] →
      reserved_words[i]?.getD [] ≠ reserved_words[j]?.getD [] → j < i := by
  decide

/-- C18: in `reserved_words`, whenever one reserved word is a proper prefix
of another, the longer word stands at a smaller index (the only such pair is
`%item` at 9 and `%itemlist` at 8); hence for every input, the first entry in
index order that is a prefix of the input is the longest reserved word that
is a prefix of the input. -/
theorem reserved_words_longest_first :
    (∀ (i j : Nat) wi wj, reserved_words[i]? = some wi → reserved_words[j]? = some wj →
      wi <+: wj → wi ≠ wj → j < i) ∧
    reserved_words[8]? = some "%itemlist".toList ∧
    reserved_words[9]? = some "%item".toList ∧
    (∀ (input : List Char) (i : Nat) wi, reserved_words[i]? = some wi → wi <+: input →
      (∀ (j : Nat) wj, j < i → reserved_words[j]? = some wj → ¬ wj <+: input) →
      ∀ (j : Nat) wj, reserved_words[j]? = some wj → wj <+: input → wj.length ≤ wi.length) := by
  have pairs : ∀ (i j : Nat) wi wj, reserved_words[i]? = some wi → reserved_words[j]? = some wj →
      wi <+: wj → wi ≠ wj → j < i := by
    intro i j wi wj hi hj hp hne
    have hi10 : i < 10 := by
      have := (List.getElem?_eq_some.mp hi).1
      simpa [reserved_words] using this
    have hj10 : j < 10 := by
      have := (List.getElem?_eq_some.mp hj).1
      simpa [reserved_words] using this
    have := reserved_words_prefix_pairs i hi10 j hj10
    rw [hi, hj] at this
    exact this hp hne
  refine ⟨pairs, rfl, rfl, ?_⟩
  intro input i wi hi hpi hfirst j wj hj hpj
  by_contra hlen
  have hlt : wi.length < wj.length := Nat.lt_of_not_le hlen
  have hpre : wi <+: wj := List.prefix_of_prefix_length_le hpi hpj (Nat.le_of_lt hlt)
  have hne : wi ≠ wj := by
    intro h
    rw [h] at hlt
    exact Nat.lt_irrefl _ hlt
  exact hfirst j wj (pairs i j wi wj hi hj hpre hne) hj hpj

/-- The loop of `construct_parser` on a stream whose first end-of-input token
comes before any syntax-error token. -/
theorem construct_loop_to_eof (pre post : List token_t) (e : token_t) (vec : token_vec_t)
    (hpre : ∀ t ∈ pre, t.type ≠ .eof ∧ t.type ≠ .syntax_error) (he : e.type = .eof) :
    construct_loop (pre ++ e :: post) vec =
      some ({ tokens := some (vec.tokens.getD [] ++ (pre ++ [e])),
              token_count := vec.token_count + (pre.length + 1) }, post) := by
  induction pre generalizing vec with
  | nil =>
    have hne : e.type ≠ .syntax_error := by rw [he]; decide
    cases hv : vec.tokens <;>
      simp [construct_loop, hne, he, add_token_to_vec, hv]
  | cons t pre ih =>
    have ht := hpre t (List.mem_cons_self _ _)
    have hrest : ∀ x ∈ pre, x.type ≠ .eof ∧ x.type ≠ .syntax_error :=
      fun x hx => hpre x (List.mem_cons_of_mem _ hx)
    rw [List.cons_append, construct_loop, if_neg ht.2]
    simp only [ne_eq, ht.1, not_false_eq_true, if_true]
    rw [ih _ hrest]
    cases hv : vec.tokens <;>
      simp [add_token_to_vec, hv, Nat.add_comm, Nat.add_left_comm]

/-- C14: for every token stream whose first end-of-input token `e` is
preceded only by tokens `pre` that are neither end-of-input nor syntax-error
tokens, `construct_parser` leaves the token buffer equal to `pre` followed by
`e`, in that order, `token_count` equal to its length, the cursor at index 0,
and the lexer with exactly the tokens after `e` still to be returned: it is
not called again after end-of-input. -/
theorem construct_parser_buffers_to_eof (pre post : List token_t) (e : token_t)
    (src_filename : List Char)
    (hpre : ∀ t ∈ pre, t.type ≠ .eof ∧ t.type ≠ .syntax_error) (he : e.type = .eof) :
    construct_parser_ (pre ++ e :: post) src_filename =
      some ({ src_filename := src_filename
              token_vec := { tokens := some (pre ++ [e]),
                             token_count := (pre ++ [e]).length }
              tok_i := 0 }, post) := by
  simp [construct_parser_, construct_loop_to_eof pre post e _ hpre he]

/-- Witness of C14: the stream of `@section Foo:` followed by end-of-input,
with further tokens that a later call would return. -/
theorem construct_parser_buffers_to_eof_witness :
    construct_parser_ (toks_unterminated ++ toks_itemlist_empty) [] =
      some ({ src_filename := []
              token_vec := { tokens := some toks_unterminated, token_count := 4 }
              tok_i := 0 }, toks_itemlist_empty) :=
  construct_parser_buffers_to_eof
    (tokens_of "@section Foo:" [(0, 8, .section_), (9, 12, .identifier), (12, 13, .colon)])
    toks_itemlist_empty
    { src_text := "@section Foo:".toList, start := 13, end_ := 13, type := .eof } []
    (by decide) (by decide)

/-- C15 (the code at the failing input): for the token stream of
`@section Foo ? @end-section`, whose third token is a syntax-error token,
`construct_parser` stops at that token (the two tokens after it are left in
the lexer) and sets the token array to null, but the recorded `token_count`
stays 2, the number of tokens buffered before the error: the source assigns
`tokens` twice (`tokens = NULL; tokens = 0;`) and never resets the count. -/
theorem construct_parser_keeps_count_on_lex_error :
    construct_parser_ toks_lex_error [] =
      some ({ src_filename := []
              token_vec := { tokens := none, token_count := 2 }
              tok_i := 0 },
            tokens_of "@section Foo ? @end-section" [(15, 27, .end_section), (27, 27, .eof)]) :=
  rfl

/-! ## What every call preserves -/

theorem sat_pure {α : Type} {rel : pstate → pstate → Prop} {e : Prop} (h : step_rel rel)
    (a : α) : M.sat rel e (M.pure a) := fun s => h.refl s

theorem sat_undefined {α : Type} {rel : pstate → pstate → Prop} {e : Prop} :
    M.sat rel e (fun _ => (.undefined : outcome α)) := fun _ => trivial

theorem sat_out_of_fuel {α : Type} {rel : pstate → pstate → Prop} {e : Prop} :
    M.sat rel e (fun _ => (.out_of_fuel : outcome α)) := fun _ => trivial

theorem sat_bind {α β : Type} {rel : pstate → pstate → Prop} {e : Prop} (h : step_rel rel)
    {m : M α} {k : α → M β} (hm : M.sat rel e m) (hk : ∀ a, M.sat rel e (k a)) :
    M.sat rel e (M.bind m k) := by
  intro s
  have h1 := hm s
  unfold M.bind
  cases hms : m s with
  | ret a s1 =>
    rw [hms] at h1
    have h2 := hk a s1
    simp only
    cases hk2 : k a s1 with
    | ret b s2 => rw [hk2] at h2; exact h.trans _ _ _ h1 h2
    | exited c s2 => rw [hk2] at h2; exact ⟨h2.1, h.trans _ _ _ h1 h2.2⟩
    | bad_read => trivial
    | undefined => trivial
    | out_of_fuel => trivial
  | exited c s1 => rw [hms] at h1; exact h1
  | bad_read => trivial
  | undefined => trivial
  | out_of_fuel => trivial

theorem sat_parser_consume {rel : pstate → pstate → Prop} {e : Prop} (h : step_rel rel)
    (type : token_type) : M.sat rel e (parser_consume type) := by
  intro s
  unfold parser_consume
  cases s.this.token_vec.tokens with
  | none => exact h.refl s
  | some toks =>
    simp only
    cases toks[s.this.tok_i]? with
    | none => trivial
    | some t =>
      simp only
      by_cases hk : t.type = type
      · rw [if_pos hk]; exact h.adv s
      · rw [if_neg hk]; exact h.refl s

theorem sat_peek {rel : pstate → pstate → Prop} {e : Prop} (h : step_rel rel) :
    M.sat rel e peek := by
  intro s
  unfold peek
  cases cur_tok s with
  | none => trivial
  | some t => exact h.refl s

theorem sat_err_message {rel : pstate → pstate → Prop} {e : Prop} (h : step_rel rel)
    (err : parser_err) (str : String) : M.sat rel e (err_message err str) :=
  fun s => h.log s err str

theorem sat_err_return {α : Type} {rel : pstate → pstate → Prop} {e : Prop} (h : step_rel rel)
    (err : parser_err) (str : String) (result : α) : M.sat rel e (err_return err str result) :=
  sat_bind h (sat_err_message h err str) fun _ => sat_pure h result

theorem sat_CONSUME_ONE_CHAR {α β : Type} {rel : pstate → pstate → Prop} {e : Prop}
    (h : step_rel rel) (type : token_type) (p : ptr β) (result : α) (str : String) {k : M α}
    (hk : M.sat rel e k) : M.sat rel e (CONSUME_ONE_CHAR type p result str k) := by
  unfold CONSUME_ONE_CHAR
  refine sat_bind h (sat_parser_consume h type) fun err => ?_
  cases err with
  | ok => exact hk
  | parser_syntax_error =>
    refine sat_bind h (sat_err_message h _ _) fun _ => ?_
    cases p
    · exact sat_pure h result
    · exact sat_pure h result
    · exact sat_undefined
  | null_ptr_error =>
    refine sat_bind h (sat_err_message h _ _) fun _ => ?_
    cases p
    · exact sat_pure h result
    · exact sat_pure h result
    · exact sat_undefined

theorem sat_CONSUME_INT_OR_NULL {α : Type} {rel : pstate → pstate → Prop} {e : Prop}
    (h : step_rel rel) (out_int : Int) (result : α) {k : Int → M α}
    (hk : ∀ v, M.sat rel e (k v)) : M.sat rel e (CONSUME_INT_OR_NULL out_int result k) := by
  unfold CONSUME_INT_OR_NULL
  refine sat_bind h (sat_peek h) fun tok => ?_
  split
  · split
    · exact sat_bind h (sat_parser_consume h _) fun _ => hk _
    · split
      · exact sat_bind h (sat_parser_consume h _) fun _ => hk _
      · exact sat_undefined
  · split
    · exact sat_bind h (sat_parser_consume h _) fun _ => hk _
    · exact sat_err_return h _ _ _

theorem sat_CONSUME_RESERVED_IDENTIFIER {α : Type} {rel : pstate → pstate → Prop} {e : Prop}
    (h : step_rel rel) (name : String) (result : α) {k : parser_err → M α}
    (hk : ∀ err, M.sat rel e (k err)) :
    M.sat rel e (CONSUME_RESERVED_IDENTIFIER name result k) := by
  unfold CONSUME_RESERVED_IDENTIFIER
  refine sat_bind h (sat_peek h) fun tok => ?_
  split
  · exact sat_err_return h _ _ _
  · exact sat_bind h (sat_parser_consume h _) hk

/-- C13 (the code at the failing input): for the tokens of
`@section A: @field x: %int[1];; @end-section @section B` followed by
end-of-input, `parser_parse` (any loop bound from 3 on) returns a Document of
two sections in the order of the buffer, but the second section, whose `:` is
missing, is kept with a freed identifier: its identifier is not the text `B`
of the identifier token that follows the second `@section`. -/
theorem parser_parse_keeps_failed_section_in_order (k : Nat) :
    parser_parse (k + 3) (parser_on toks_two_sections) =
      .ret (some
          { filename := []
            sections := .live
              [{ identifier := .live ['A']
                 fields := .live
                   [{ field_t.init with identifier := .live ['x'], type := .int_val, int_val := 1 }]
                 field_count := 1 },
               { identifier := .dangling, fields := .null, field_count := 0 }]
            section_count := 2 })
        (logged (at_index (parser_on toks_two_sections) 16) [(.parser_syntax_error, "':'")]) :=
  rfl

set_option maxRecDepth 4000 in
theorem sat_parse_stat_val {rel : pstate → pstate → Prop} {e : Prop} (h : step_rel rel) :
    M.sat rel e parse_stat_val := by
  unfold parse_stat_val
  repeat' first
    | exact sat_pure h _
    | exact sat_err_return h _ _ _
    | exact sat_parser_consume h _
    | exact sat_undefined
    | apply sat_CONSUME_ONE_CHAR h
    | apply sat_CONSUME_INT_OR_NULL h
    | apply sat_CONSUME_RESERVED_IDENTIFIER h
    | apply sat_bind h
    | split
    | intro _

theorem sat_parse_string_val {rel : pstate → pstate → Prop} {e : Prop} (h : step_rel rel) :
    M.sat rel e parse_string_val := by
  unfold parse_string_val
  refine sat_bind h (sat_parser_consume h _) fun _ => ?_
  refine sat_CONSUME_ONE_CHAR h _ _ _ _ ?_
  refine sat_bind h (sat_peek h) fun tok => ?_
  split
  · split
    · exact sat_undefined
    · exact sat_CONSUME_ONE_CHAR h _ _ _ _ (sat_pure h _)
  · exact sat_CONSUME_ONE_CHAR h _ _ _ _ (sat_pure h _)

theorem sat_parse_int_val {rel : pstate → pstate → Prop} {e : Prop} (h : step_rel rel) :
    M.sat rel e parse_int_val := by
  unfold parse_int_val
  repeat' first
    | exact sat_pure h _
    | exact sat_err_return h _ _ _
    | exact sat_parser_consume h _
    | exact sat_undefined
    | apply sat_CONSUME_ONE_CHAR h
    | apply sat_CONSUME_INT_OR_NULL h
    | apply sat_CONSUME_RESERVED_IDENTIFIER h
    | apply sat_bind h
    | split
    | intro _

set_option maxRecDepth 4000 in
theorem sat_parse_dice_val {rel : pstate → pstate → Prop} {e : Prop} (h : step_rel rel) :
    M.sat rel e parse_dice_val := by
  unfold parse_dice_val
  repeat' first
    | exact sat_pure h _
    | exact sat_err_return h _ _ _
    | exact sat_parser_consume h _
    | exact sat_undefined
    | apply sat_CONSUME_ONE_CHAR h
    | apply sat_CONSUME_INT_OR_NULL h
    | apply sat_CONSUME_RESERVED_IDENTIFIER h
    | apply sat_bind h
    | split
    | intro _

set_option maxRecDepth 4000 in
theorem sat_parse_deathsave_val {rel : pstate → pstate → Prop} {e : Prop} (h : step_rel rel) :
    M.sat rel e parse_deathsave_val := by
  unfold parse_deathsave_val
  repeat' first
    | exact sat_pure h _
    | exact sat_err_return h _ _ _
    | exact sat_parser_consume h _
    | exact sat_undefined
    | apply sat_CONSUME_ONE_CHAR h
    | apply sat_CONSUME_INT_OR_NULL h
    | apply sat_CONSUME_RESERVED_IDENTIFIER h
    | apply sat_bind h
    | split
    | intro _

set_option maxRecDepth 4000 in
theorem sat_parse_item_val_rest {rel : pstate → pstate → Prop} {e : Prop} (h : step_rel rel)
    (result : item_t) : M.sat rel e (parse_item_val_rest result) := by
  unfold parse_item_val_rest
  repeat' first
    | exact sat_pure h _
    | exact sat_err_return h _ _ _
    | exact sat_parser_consume h _
    | exact sat_undefined
    | apply sat_CONSUME_ONE_CHAR h
    | apply sat_CONSUME_INT_OR_NULL h
    | apply sat_CONSUME_RESERVED_IDENTIFIER h
    | apply sat_bind h
    | split
    | intro _

theorem sat_parse_item_val {rel : pstate → pstate → Prop} {e : Prop} (h : step_rel rel) :
    M.sat rel e parse_item_val := by
  unfold parse_item_val
  refine sat_bind h (sat_parser_consume h _) fun _ => ?_
  refine sat_CONSUME_ONE_CHAR h _ _ _ _ ?_
  refine sat_CONSUME_RESERVED_IDENTIFIER h _ _ fun err => ?_
  cases err with
  | ok =>
    refine sat_CONSUME_ONE_CHAR h _ _ _ _ ?_
    refine sat_bind h (sat_peek h) fun tok => ?_
    split
    · split
      · exact sat_undefined
      · exact sat_parse_item_val_rest h _
    · exact sat_parse_item_val_rest h _
  | parser_syntax_error => exact sat_err_return h _ _ _
  | null_ptr_error => exact sat_err_return h _ _ _

theorem sat_parse_itemlist_loop {rel : pstate → pstate → Prop} {e : Prop} (h : step_rel rel)
    (fuel : Nat) (result : itemlist_t) : M.sat rel e (parse_itemlist_loop fuel result) := by
  induction fuel generalizing result with
  | zero => exact sat_out_of_fuel
  | succ fuel ih =>
    unfold parse_itemlist_loop
    refine sat_bind h (sat_peek h) fun tok => ?_
    split
    · split
      · exact sat_err_return h _ _ _
      · refine sat_bind h (sat_parse_item_val h) fun item => ?_
        exact sat_CONSUME_ONE_CHAR h _ _ _ _ (ih _)
    · exact sat_bind h (sat_parser_consume h _) fun _ => sat_pure h _

theorem sat_parse_itemlist_val {rel : pstate → pstate → Prop} {e : Prop} (h : step_rel rel)
    (fuel : Nat) : M.sat rel e (parse_itemlist_val fuel) := by
  unfold parse_itemlist_val
  refine sat_bind h (sat_parser_consume h _) fun _ => ?_
  exact sat_CONSUME_ONE_CHAR h _ _ _ _ (sat_parse_itemlist_loop h _ _)

theorem sat_parse_field_end {rel : pstate → pstate → Prop} {e : Prop} (h : step_rel rel)
    (result : field_t) : M.sat rel e (parse_field_end result) := by
  unfold parse_field_end
  refine sat_bind h (sat_parser_consume h _) fun err => ?_
  cases err with
  | ok => exact sat_pure h _
  | parser_syntax_error =>
    refine sat_bind h (sat_err_message h _ _) fun _ => ?_
    dsimp only
    repeat' first
      | exact sat_pure h _
      | exact sat_undefined
      | split
  | null_ptr_error =>
    refine sat_bind h (sat_err_message h _ _) fun _ => ?_
    dsimp only
    repeat' first
      | exact sat_pure h _
      | exact sat_undefined
      | split

theorem sat_parse_field {rel : pstate → pstate → Prop} {e : Prop} (h : step_rel rel)
    (fuel : Nat) : M.sat rel e (parse_field fuel) := by
  unfold parse_field
  refine sat_bind h (sat_parser_consume h _) fun err => ?_
  cases err with
  | ok =>
    refine sat_bind h (sat_peek h) fun tok => ?_
    split
    · refine sat_bind h (sat_parser_consume h _) fun _ => ?_
      refine sat_CONSUME_ONE_CHAR h _ _ _ _ ?_
      refine sat_bind h (sat_peek h) fun tok2 => ?_
      split
      · exact sat_bind h (sat_parse_stat_val h) fun _ => sat_parse_field_end h _
      · exact sat_bind h (sat_parse_string_val h) fun _ => sat_parse_field_end h _
      · exact sat_bind h (sat_parse_int_val h) fun _ => sat_parse_field_end h _
      · exact sat_bind h (sat_parse_dice_val h) fun _ => sat_parse_field_end h _
      · exact sat_bind h (sat_parse_deathsave_val h) fun _ => sat_parse_field_end h _
      · exact sat_bind h (sat_parse_itemlist_val h _) fun _ => sat_parse_field_end h _
      · exact sat_bind h (sat_parse_item_val h) fun _ => sat_parse_field_end h _
      · exact sat_err_return h _ _ _
    · exact sat_err_return h _ _ _
  | parser_syntax_error => exact sat_err_return h _ _ _
  | null_ptr_error => exact sat_err_return h _ _ _

theorem sat_parse_section_loop {rel : pstate → pstate → Prop} (h : step_rel rel)
    (n fuel : Nat) (result : section_t) :
    M.sat rel True (parse_section_loop n fuel result) := by
  induction fuel generalizing result with
  | zero => exact sat_out_of_fuel
  | succ fuel ih =>
    unfold parse_section_loop
    refine sat_bind h (sat_peek h) fun tok => ?_
    split
    · split
      · exact sat_err_return h _ _ _
      · refine sat_bind h (sat_parse_field h n) fun curr_field => ?_
        split
        · refine sat_bind h (sat_err_message h _ _) fun _ => ?_
          exact fun s => ⟨trivial, h.refl s⟩
        · exact sat_CONSUME_ONE_CHAR h _ _ _ _ (ih _)
    · exact sat_bind h (sat_parser_consume h _) fun _ => sat_pure h _

theorem sat_parse_section {rel : pstate → pstate → Prop} (h : step_rel rel) (fuel : Nat) :
    M.sat rel True (parse_section fuel) := by
  unfold parse_section
  refine sat_bind h (sat_parser_consume h _) fun err => ?_
  cases err with
  | ok =>
    refine sat_bind h (sat_peek h) fun tok => ?_
    split
    · refine sat_bind h (sat_parser_consume h _) fun _ => ?_
      exact sat_CONSUME_ONE_CHAR h _ _ _ _ (sat_parse_section_loop h _ _ _)
    · exact sat_err_return h _ _ _
  | parser_syntax_error => exact sat_err_return h _ _ _
  | null_ptr_error => exact sat_err_return h _ _ _

theorem sat_parser_parse_loop {rel : pstate → pstate → Prop} (h : step_rel rel)
    (n fuel : Nat) (result : charsheet_t) :
    M.sat rel True (parser_parse_loop n fuel result) := by
  induction fuel generalizing result with
  | zero => exact sat_out_of_fuel
  | succ fuel ih =>
    unfold parser_parse_loop
    refine sat_bind h (sat_peek h) fun tok => ?_
    split
    · refine sat_bind h (sat_parse_section h n) fun sec => ?_
      split
      · exact sat_pure h _
      · exact ih _
    · refine sat_bind h (sat_parser_consume h _) fun err => ?_
      cases err with
      | ok => exact sat_pure h _
      | parser_syntax_error => exact sat_err_return h _ _ _
      | null_ptr_error => exact sat_err_return h _ _ _

theorem sat_parser_parse {rel : pstate → pstate → Prop} (h : step_rel rel) (fuel : Nat) :
    M.sat rel True (parser_parse fuel) := fun s => sat_parser_parse_loop h fuel fuel _ s

/-- The relation that holds between any two states. -/
theorem step_rel_true : step_rel fun _ _ => True :=
  ⟨fun _ => trivial, fun _ _ _ _ _ => trivial, fun _ => trivial, fun _ _ _ => trivial⟩

/-- The rule `parse_field` never terminates the process itself. -/
theorem parse_field_never_exits (fuel : Nat) (s s1 : pstate) (c : Nat) :
    parse_field fuel s ≠ .exited c s1 := by
  intro h
  have := sat_parse_field (e := False) step_rel_true fuel s
  rw [h] at this
  exact this.1

theorem bind_exited {α β : Type} {m : M α} {k : α → M β} {s s' : pstate} {c : Nat}
    (h : M.bind m k s = .exited c s') :
    m s = .exited c s' ∨ ∃ a s1, m s = .ret a s1 ∧ k a s1 = .exited c s' := by
  unfold M.bind at h
  cases hm : m s with
  | ret a s1 => rw [hm] at h; exact Or.inr ⟨a, s1, rfl, h⟩
  | exited c2 s1 =>
    rw [hm] at h
    simp only [outcome.exited.injEq] at h
    rw [h.1, h.2]
    exact Or.inl rfl
  | bad_read => rw [hm] at h; exact absurd h (by simp)
  | undefined => rw [hm] at h; exact absurd h (by simp)
  | out_of_fuel => rw [hm] at h; exact absurd h (by simp)

/-- A field returned with a kind other than `syntax_error` had its header
accepted, and its kind is the value keyword. -/
theorem parse_field_header_of_kind {fuel : Nat} {s s' : pstate} {f : field_t}
    (h : parse_field fuel s = .ret f s') (hk : f.type ≠ .syntax_error) :
    field_header_ok s := by
  unfold parse_field at h
  obtain ⟨e, s1, hc, h⟩ := bind_ret h
  rcases parser_consume_cases hc with ⟨rfl, hk0, rfl⟩ | ⟨hne, _, rfl⟩
  · simp only at h
    obtain ⟨tok, s2, hp, h⟩ := bind_ret h
    obtain ⟨rfl, htok⟩ := peek_ret hp
    by_cases hid : tok.type = .identifier
    · simp only [hid, if_true] at h
      obtain ⟨e2, s3, hc2, h⟩ := bind_ret h
      have hk1 : kind_at s (s.this.tok_i + 1) = some .identifier := by
        have : tok_at s (s.this.tok_i + 1) = some tok := htok
        simp [kind_at, this, hid]
      rcases parser_consume_cases hc2 with ⟨_, _, rfl⟩ | ⟨_, hno, _⟩
      · rcases CONSUME_ONE_CHAR_ret h with ⟨hk2, h⟩ | ⟨_, rfl, _⟩
        · obtain ⟨tok2, s4, hp2, h⟩ := bind_ret h
          obtain ⟨rfl, htok2⟩ := peek_ret hp2
          have ht3 : tok_at s (s.this.tok_i + 3) = some tok2 := htok2
          refine ⟨hk0, hk1, hk2, ?_⟩
          cases htt : tok2.type <;> simp only [htt] at h <;>
            first
            | exact absurd (err_return_ret h).1 (by rintro rfl; exact hk rfl)
            | simp [kind_at, ht3, htt, is_value_keyword]
        · exact absurd rfl hk
      · exact absurd hk1 hno
    · simp only [hid, if_false] at h
      exact absurd (err_return_ret h).1 (by rintro rfl; exact hk rfl)
  · cases e with
    | ok => exact absurd rfl hne
    | parser_syntax_error => exact absurd (err_return_ret h).1 (by rintro rfl; exact hk rfl)
    | null_ptr_error => exact absurd (err_return_ret h).1 (by rintro rfl; exact hk rfl)

/-- A field whose header is accepted is never returned with the kind
`syntax_error`. -/
theorem parse_field_kind_of_header {fuel : Nat} {s s' : pstate} {f : field_t}
    (h : parse_field fuel s = .ret f s') (hh : field_header_ok s) :
    f.type ≠ .syntax_error := by
  obtain ⟨h0, h1, h2, h3⟩ := hh
  obtain ⟨t1, ht1, hk1⟩ := kind_at_eq_some h1
  have hs : parse_field fuel s = parse_field fuel (at_index s s.this.tok_i) := rfl
  rw [hs] at h
  generalize s.this.tok_i = i at *
  cases ht3 : tok_at s (i + 3) with
  | none => simp [kind_at, ht3] at h3
  | some tv =>
    have hv : is_value_keyword tv.type = true := by simpa [kind_at, ht3] using h3
    simp only [parse_field, M.bind, parser_consume_ok h0, peek_at ht1, hk1, if_true,
      parser_consume_ok h1, CONSUME_ONE_CHAR_ok h2, peek_at ht3] at h
    have key : ∀ (r : field_t) (s1 : pstate), is_value_keyword r.type = true →
        parse_field_end r s1 = .ret f s' → f.type ≠ .syntax_error := by
      intro r s1 hr hend hf
      rcases parse_field_end_cases hend with ⟨_, rfl, _⟩ | ⟨_, _, hty, _⟩
      · rw [hf] at hr; exact absurd hr (by decide)
      · rw [← hty, hf] at hr; exact absurd hr (by decide)
    cases htt : tv.type <;> simp only [htt, is_value_keyword] at hv h <;>
      first
      | exact absurd hv (by decide)
      | (obtain ⟨v, s5, _, h⟩ := bind_ret h
         refine key _ _ ?_ h
         rfl)

theorem not_exited_of_sat {α : Type} {m : M α}
    (h : M.sat (fun _ _ => True) False m) (s s1 : pstate) (c : Nat) :
    m s ≠ .exited c s1 := by
  intro hm
  have := h s
  rw [hm] at this
  exact this.1

theorem CONSUME_ONE_CHAR_exited {α β : Type} {type : token_type} {p : ptr β} {result : α}
    {str : String} {k : M α} {s s' : pstate} {c : Nat}
    (h : CONSUME_ONE_CHAR type p result str k s = .exited c s') :
    k (advance s) = .exited c s' := by
  unfold CONSUME_ONE_CHAR at h
  rcases bind_exited h with h | ⟨e, s1, hc, h⟩
  · exact absurd h (not_exited_of_sat (sat_parser_consume step_rel_true _) _ _ _)
  · rcases parser_consume_cases hc with ⟨rfl, _, rfl⟩ | ⟨hne, _, rfl⟩
    · exact h
    · have hsat : M.sat (fun _ _ => True) False
          (CONSUME_ONE_CHAR type p result str (M.pure result)) :=
        sat_CONSUME_ONE_CHAR step_rel_true _ _ _ _ (sat_pure step_rel_true _)
      cases e with
      | ok => exact absurd rfl hne
      | parser_syntax_error =>
        rcases bind_exited h with h | ⟨_, s2, _, h⟩
        · exact absurd h (not_exited_of_sat (sat_err_message step_rel_true _ _) _ _ _)
        · cases p <;> simp [M.pure] at h
      | null_ptr_error =>
        rcases bind_exited h with h | ⟨_, s2, _, h⟩
        · exact absurd h (not_exited_of_sat (sat_err_message step_rel_true _ _) _ _ _)
        · cases p <;> simp [M.pure] at h

/-- Every fatal exit of the field loop of `parse_section` is the `exit(1)`
that follows a call of `parse_field` which returned the kind
`syntax_error`. -/
theorem parse_section_loop_exited {n fuel : Nat} {result : section_t} {s s' : pstate}
    {c : Nat} (h : parse_section_loop n fuel result s = .exited c s') :
    c = 1 ∧ ∃ s0 f s1, parse_field n s0 = .ret f s1 ∧ f.type = .syntax_error ∧
      s' = logged s1 [(.parser_syntax_error, "@field")] := by
  induction fuel generalizing result s with
  | zero => simp [parse_section_loop] at h
  | succ fuel ih =>
    unfold parse_section_loop at h
    rcases bind_exited h with h1 | ⟨tok, s1, hp, h1⟩
    · exact absurd h1 (not_exited_of_sat (sat_peek step_rel_true) _ _ _)
    · obtain ⟨hs1, _⟩ := peek_ret hp
      subst hs1
      by_cases hes : tok.type = .end_section
      · simp only [hes, ne_eq, not_true_eq_false, if_false] at h1
        exact absurd h1 (not_exited_of_sat
          (sat_bind step_rel_true (sat_parser_consume step_rel_true _)
            fun _ => sat_pure step_rel_true _) _ _ _)
      · simp only [ne_eq, hes, not_false_eq_true, if_true] at h1
        by_cases heof : tok.type = .eof
        · simp only [heof, if_true] at h1
          exact absurd h1 (not_exited_of_sat (sat_err_return step_rel_true _ _ _) _ _ _)
        · simp only [heof, if_false] at h1
          rcases bind_exited h1 with h2 | ⟨f, s2, hf, h2⟩
          · exact absurd h2 (parse_field_never_exits _ _ _ _)
          · by_cases hty : f.type = .syntax_error
            · simp only [hty, if_true, M.bind, err_message, outcome.exited.injEq] at h2
              exact ⟨h2.1.symm, _, f, s2, hf, hty, h2.2.symm⟩
            · simp only [hty, if_false] at h2
              exact ih (CONSUME_ONE_CHAR_exited h2)

/-- Every fatal exit of `parse_section` comes from its field loop. -/
theorem parse_section_exited {fuel : Nat} {s s' : pstate} {c : Nat}
    (h : parse_section fuel s = .exited c s') :
    c = 1 ∧ ∃ s0 f s1, parse_field fuel s0 = .ret f s1 ∧ f.type = .syntax_error ∧
      s' = logged s1 [(.parser_syntax_error, "@field")] := by
  unfold parse_section at h
  rcases bind_exited h with h | ⟨e, s1, _, h⟩
  · exact absurd h (not_exited_of_sat (sat_parser_consume step_rel_true _) _ _ _)
  · cases e with
    | ok =>
      simp only at h
      rcases bind_exited h with h | ⟨tok, s2, _, h⟩
      · exact absurd h (not_exited_of_sat (sat_peek step_rel_true) _ _ _)
      · by_cases hid : tok.type = .identifier
        · simp only [hid, if_true] at h
          rcases bind_exited h with h | ⟨_, s3, _, h⟩
          · exact absurd h (not_exited_of_sat (sat_parser_consume step_rel_true _) _ _ _)
          · exact parse_section_loop_exited (CONSUME_ONE_CHAR_exited h)
        · simp only [hid, if_false] at h
          exact absurd h (not_exited_of_sat (sat_err_return step_rel_true _ _ _) _ _ _)
    | parser_syntax_error =>
      exact absurd h (not_exited_of_sat (sat_err_return step_rel_true _ _ _) _ _ _)
    | null_ptr_error =>
      exact absurd h (not_exited_of_sat (sat_err_return step_rel_true _ _ _) _ _ _)

/-- In the field loop of `parse_section`, a call of `parse_field` that returns
the kind `syntax_error` is followed by the diagnostic and `exit(1)`. -/
theorem parse_section_loop_exits {n fuel : Nat} {result : section_t} {s s1 : pstate}
    {tok : token_t} {f : field_t} (ht : cur_tok s = some tok)
    (hes : tok.type ≠ .end_section) (heof : tok.type ≠ .eof)
    (hf : parse_field n s = .ret f s1) (hty : f.type = .syntax_error) :
    parse_section_loop n (fuel + 1) result s =
      .exited 1 (logged s1 [(.parser_syntax_error, "@field")]) := by
  have hp : peek s = .ret tok s := by simp only [peek, ht]
  simp only [parse_section_loop, M.bind, hp, ne_eq, hes, not_false_eq_true, if_true, heof,
    if_false, hf, hty, err_message]
  rfl

/-- C20: `parse_section` terminates the process exactly when `parse_field`
reports a field of kind `syntax_error`.
(1) A field that `parse_field` returns has the kind `syntax_error` exactly
when its header is not accepted, that is when `@field`, the identifier, the
`:` or a recognised value keyword is missing; a field whose header is
accepted keeps the kind of its value keyword whatever happens inside the
bracketed payload or at the trailing `;`.
(2) `parse_field` itself never terminates the process.
(3) In the field loop of `parse_section`, a call of `parse_field` that returns
the kind `syntax_error` is followed by `exit(1)`.
(4) Every termination of the process by `parse_section` is such an `exit(1)`
after a `parse_field` that returned the kind `syntax_error`. -/
theorem parse_section_exits_iff_field_syntax_error :
    (∀ (fuel : Nat) (s s1 : pstate) (f : field_t), parse_field fuel s = .ret f s1 →
      (f.type = .syntax_error ↔ ¬ field_header_ok s)) ∧
    (∀ (fuel : Nat) (s s1 : pstate) (c : Nat), parse_field fuel s ≠ .exited c s1) ∧
    (∀ (n fuel : Nat) (result : section_t) (s s1 : pstate) (tok : token_t) (f : field_t),
      cur_tok s = some tok → tok.type ≠ .end_section → tok.type ≠ .eof →
      parse_field n s = .ret f s1 → f.type = .syntax_error →
      parse_section_loop n (fuel + 1) result s =
        .exited 1 (logged s1 [(.parser_syntax_error, "@field")])) ∧
    (∀ (fuel : Nat) (s s' : pstate) (c : Nat), parse_section fuel s = .exited c s' →
      c = 1 ∧ ∃ s0 f s1, parse_field fuel s0 = .ret f s1 ∧ f.type = .syntax_error ∧
        s' = logged s1 [(.parser_syntax_error, "@field")]) := by
  refine ⟨?_, parse_field_never_exits, ?_, ?_⟩
  · intro fuel s s1 f h
    constructor
    · intro hty hh
      exact parse_field_kind_of_header h hh hty
    · intro hh
      by_contra hty
      exact hh (parse_field_header_of_kind h hty)
  · intro n fuel result s s1 tok f ht hes heof hf hty
    exact parse_section_loop_exits ht hes heof hf hty
  · intro fuel s s' c h
    exact parse_section_exited h

/-- Witness of C20: in `@section Foo: @field x: itn[5]; @end-section` the
field lacks a value keyword: `parse_field` returns the kind `syntax_error`
and the field loop of `parse_section` exits with status 1.  In
`@field x: %int[5] @end-section` only the trailing `;` is missing: the header
is accepted and the field returned is not of kind `syntax_error`. -/
theorem parse_section_exits_iff_field_syntax_error_witness :
    parse_section_loop 0 1
        { identifier := .live ['F', 'o', 'o'], fields := .null, field_count := 0 }
        (at_index (parser_on toks_section_unknown_kind) 3) =
      .exited 1 (logged (logged (at_index (parser_on toks_section_unknown_kind) 6)
        [(.parser_syntax_error, "field value")]) [(.parser_syntax_error, "@field")]) ∧
    ((({ field_t.init with type := .int_val, int_val := 5 } : field_t).type = .syntax_error) ↔
      ¬ field_header_ok (parser_on toks_field_no_semicolon)) :=
  ⟨parse_section_exits_iff_field_syntax_error.2.2.1 0 0 _
      (at_index (parser_on toks_section_unknown_kind) 3) _
      { src_text := "@section Foo: @field x: itn[5]; @end-section".toList,
        start := 14, end_ := 20, type := .field }
      { field_t.init with identifier := .dangling, type := .syntax_error }
      (by decide) (by decide) (by decide) rfl rfl,
   parse_section_exits_iff_field_syntax_error.1 0 (parser_on toks_field_no_semicolon)
      (logged (at_index (parser_on toks_field_no_semicolon) 7)
        [(.parser_syntax_error, "';'")])
      { field_t.init with type := .int_val, int_val := 5 } rfl⟩

/-- C21, counterexample: for the tokens of `%int[foo]` the stray identifier is
not taken for `NULL`: `parse_int_val` leaves it under the cursor (index 2),
prints "']' expected" for it and returns without consuming the bracket. -/
theorem parse_int_val_stray_rejected :
    parse_int_val (parser_on toks_int_stray) =
      .ret INT_MIN
        (logged (at_index (parser_on toks_int_stray) 2) [(.parser_syntax_error, "']'")]) :=
  rfl

/-- In an int-or-null slot a token that is neither an int-literal nor `NULL`
is neither consumed nor reported: the macro is left with the state and the
value of the slot unchanged. -/
theorem CONSUME_INT_OR_NULL_stray {α : Type} {s : pstate} {i : Nat} {t : token_t}
    (ht : tok_at s i = some t) (h1 : t.type ≠ .int_literal) (h2 : t.type ≠ .null_val)
    (out_int : Int) (result : α) (k : Int → M α) :
    CONSUME_INT_OR_NULL out_int result k (at_index s i) = k out_int (at_index s i) := by
  have hk : kind_at s i = some t.type := by simp [kind_at, ht]
  simp only [CONSUME_INT_OR_NULL, M.bind, peek_at ht, if_neg h1, ne_eq, h2, not_false_eq_true,
    if_true, parser_consume_mismatch hk h2]

/-- C21, amended: for every parser state whose cursor stands on `%int`, `[`
and a token `t` that is neither an int-literal nor the `NULL` keyword, the
int-or-null slot neither consumes nor reports `t` and the value stays unset
(`INT_MIN`); the rule then asks for `]` at `t`.  So `parse_int_val` succeeds
only if `t` is itself the `]` (the empty `%int[]`), and otherwise returns the
unset value with "']' expected" printed and the cursor left on `t`. -/
theorem parse_int_val_stray (s : pstate) (t : token_t)
    (h0 : kind_at s s.this.tok_i = some .int_val)
    (h1 : kind_at s (s.this.tok_i + 1) = some .open_sqr_bracket)
    (h2 : tok_at s (s.this.tok_i + 2) = some t)
    (hn1 : t.type ≠ .int_literal) (hn2 : t.type ≠ .null_val) :
    parse_int_val s =
      if t.type = .close_sqr_bracket then .ret INT_MIN (at_index s (s.this.tok_i + 3))
      else .ret INT_MIN
        (logged (at_index s (s.this.tok_i + 2)) [(.parser_syntax_error, "']'")]) := by
  have hs : parse_int_val s = parse_int_val (at_index s s.this.tok_i) := rfl
  rw [hs]
  generalize s.this.tok_i = i at *
  have hk : kind_at s (i + 2) = some t.type := by simp [kind_at, h2]
  simp only [parse_int_val, M.bind, parser_consume_ok h0, CONSUME_ONE_CHAR_ok h1,
    CONSUME_INT_OR_NULL_stray h2 hn1 hn2]
  by_cases hc : t.type = .close_sqr_bracket
  · rw [if_pos hc]
    rw [hc] at hk
    simp only [CONSUME_ONE_CHAR_ok hk, M.pure]
  · rw [if_neg hc]
    simp only [CONSUME_ONE_CHAR, M.bind, parser_consume_mismatch hk hc, err_message, NULL,
      M.pure]
    rfl

/-- Witness of C21 amended: the tokens of `%int[foo]`. -/
theorem parse_int_val_stray_witness :
    parse_int_val (parser_on toks_int_stray) =
      if token_type.identifier = token_type.close_sqr_bracket then
        .ret INT_MIN (at_index (parser_on toks_int_stray) 3)
      else .ret INT_MIN
        (logged (at_index (parser_on toks_int_stray) 2) [(.parser_syntax_error, "']'")]) :=
  parse_int_val_stray (parser_on toks_int_stray)
    { src_text := "%int[foo]".toList, start := 5, end_ := 8, type := .identifier }
    (by decide) (by decide) (by decide) (by decide) (by decide)

/-! ## The cursor never moves back -/

theorem step_rel_cursor_kept : step_rel cursor_kept :=
  ⟨fun _ => ⟨rfl, Nat.le_refl _⟩,
   fun _ _ _ h1 h2 => ⟨h2.1.trans h1.1, Nat.le_trans h1.2 h2.2⟩,
   fun _ => ⟨rfl, Nat.le_succ _⟩,
   fun _ _ _ => ⟨rfl, Nat.le_refl _⟩⟩

theorem ret_of_sat {α : Type} {rel : pstate → pstate → Prop} {e : Prop} {m : M α}
    (h : M.sat rel e m) {s s1 : pstate} {a : α} (hm : m s = .ret a s1) : rel s s1 := by
  have := h s
  rw [hm] at this
  exact this

/-- C22: for every parser state and every rule (`parser_parse`,
`parse_section`, `parse_field` and the seven value rules, with any loop
bound), whenever the rule returns, on success and on failure alike, the
token buffer is the one it started with and the cursor index is greater than
or equal to the index before the call. -/
theorem cursor_monotone :
    (∀ (fuel : Nat) (s s1 : pstate) (d : Option charsheet_t),
      parser_parse fuel s = .ret d s1 → cursor_kept s s1) ∧
    (∀ (fuel : Nat) (s s1 : pstate) (x : section_t),
      parse_section fuel s = .ret x s1 → cursor_kept s s1) ∧
    (∀ (fuel : Nat) (s s1 : pstate) (x : field_t),
      parse_field fuel s = .ret x s1 → cursor_kept s s1) ∧
    (∀ (s s1 : pstate) (x : stat_t), parse_stat_val s = .ret x s1 → cursor_kept s s1) ∧
    (∀ (s s1 : pstate) (x : ptr (List Char)),
      parse_string_val s = .ret x s1 → cursor_kept s s1) ∧
    (∀ (s s1 : pstate) (x : Int), parse_int_val s = .ret x s1 → cursor_kept s s1) ∧
    (∀ (s s1 : pstate) (x : diceroll_t), parse_dice_val s = .ret x s1 → cursor_kept s s1) ∧
    (∀ (s s1 : pstate) (x : deathsave_t),
      parse_deathsave_val s = .ret x s1 → cursor_kept s s1) ∧
    (∀ (fuel : Nat) (s s1 : pstate) (x : itemlist_t),
      parse_itemlist_val fuel s = .ret x s1 → cursor_kept s s1) ∧
    (∀ (s s1 : pstate) (x : item_t), parse_item_val s = .ret x s1 → cursor_kept s s1) :=
  ⟨fun fuel _ _ _ h => ret_of_sat (sat_parser_parse step_rel_cursor_kept fuel) h,
   fun fuel _ _ _ h => ret_of_sat (sat_parse_section step_rel_cursor_kept fuel) h,
   fun fuel _ _ _ h => ret_of_sat (sat_parse_field (e := True) step_rel_cursor_kept fuel) h,
   fun _ _ _ h => ret_of_sat (sat_parse_stat_val (e := True) step_rel_cursor_kept) h,
   fun _ _ _ h => ret_of_sat (sat_parse_string_val (e := True) step_rel_cursor_kept) h,
   fun _ _ _ h => ret_of_sat (sat_parse_int_val (e := True) step_rel_cursor_kept) h,
   fun _ _ _ h => ret_of_sat (sat_parse_dice_val (e := True) step_rel_cursor_kept) h,
   fun _ _ _ h => ret_of_sat (sat_parse_deathsave_val (e := True) step_rel_cursor_kept) h,
   fun fuel _ _ _ h =>
     ret_of_sat (sat_parse_itemlist_val (e := True) step_rel_cursor_kept fuel) h,
   fun _ _ _ h => ret_of_sat (sat_parse_item_val (e := True) step_rel_cursor_kept) h⟩

/-- Witness of C22: the failed parse of `%int[foo]` moves the cursor from 0
to 2 and keeps the buffer; the failed parse of the document
`@section Foo: @field hp: %int[10]; @end-section` moves it from 0 to 11. -/
theorem cursor_monotone_witness :
    cursor_kept (parser_on toks_int_stray)
      (logged (at_index (parser_on toks_int_stray) 2) [(.parser_syntax_error, "']'")]) ∧
    cursor_kept (parser_on toks_foo_hp)
      (logged (at_index (parser_on toks_foo_hp) 11)
        [(.parser_syntax_error, "';'"), (.parser_syntax_error, "@section")]) :=
  ⟨cursor_monotone.2.2.2.2.2.1 (parser_on toks_int_stray) _ INT_MIN rfl,
   cursor_monotone.1 2 (parser_on toks_foo_hp) _ none rfl⟩

/-! ## Properties of the state that every call keeps -/

theorem safe_pure {α : Type} {I : pstate → Prop} {b o : Prop} (a : α) :
    M.safe I b o (M.pure a) := fun _ hI => hI

theorem safe_undefined {α : Type} {I : pstate → Prop} {b o : Prop} :
    M.safe I b o (fun _ => (.undefined : outcome α)) := fun _ _ => trivial

theorem safe_out_of_fuel {α : Type} {I : pstate → Prop} {b o : Prop} (ho : o) :
    M.safe I b o (fun _ => (.out_of_fuel : outcome α)) := fun _ _ => ho

theorem safe_exit {α : Type} {I : pstate → Prop} {b o : Prop} (c : Nat) :
    M.safe I b o (fun s => (.exited c s : outcome α)) := fun _ hI => hI

theorem safe_bind {α β : Type} {I : pstate → Prop} {b o : Prop}
    {m : M α} {k : α → M β} (hm : M.safe I b o m) (hk : ∀ a, M.safe I b o (k a)) :
    M.safe I b o (M.bind m k) := by
  intro s hI
  have h1 := hm s hI
  unfold M.bind
  cases hms : m s with
  | ret a s1 =>
    rw [hms] at h1
    exact hk a s1 h1
  | exited c s1 => rw [hms] at h1; exact h1
  | bad_read => rw [hms] at h1; exact h1
  | undefined => trivial
  | out_of_fuel => rw [hms] at h1; exact h1

theorem safe_parser_consume {I : pstate → Prop} {b o : Prop} (h : inv_ok I b)
    (type : token_type) (hne : type ≠ .eof) : M.safe I b o (parser_consume type) := by
  intro s hI
  unfold parser_consume
  cases hb : s.this.token_vec.tokens with
  | none => exact hI
  | some toks =>
    simp only
    cases ht : toks[s.this.tok_i]? with
    | none =>
      have : cur_tok s = none := by simp [cur_tok, tok_at, hb, ht]
      exact h.read s hI this
    | some t =>
      have hc : cur_tok s = some t := by simp [cur_tok, tok_at, hb, ht]
      simp only
      by_cases hk : t.type = type
      · rw [if_pos hk]
        exact h.adv s t hI hc (by rw [hk]; exact hne)
      · rw [if_neg hk]; exact hI

theorem safe_peek {I : pstate → Prop} {b o : Prop} (h : inv_ok I b) :
    M.safe I b o peek := by
  intro s hI
  unfold peek
  cases hc : cur_tok s with
  | none => exact h.read s hI hc
  | some t => exact hI

theorem safe_err_message {I : pstate → Prop} {b o : Prop} (h : inv_ok I b)
    (err : parser_err) (str : String) : M.safe I b o (err_message err str) :=
  fun s hI => h.log s err str hI

theorem safe_err_return {α : Type} {I : pstate → Prop} {b o : Prop} (h : inv_ok I b)
    (err : parser_err) (str : String) (result : α) :
    M.safe I b o (err_return err str result) :=
  safe_bind (safe_err_message h err str) fun _ => safe_pure result

theorem safe_CONSUME_ONE_CHAR {α β : Type} {I : pstate → Prop} {b o : Prop}
    (h : inv_ok I b) (type : token_type) (hne : type ≠ .eof) (p : ptr β) (result : α)
    (str : String) {k : M α} (hk : M.safe I b o k) :
    M.safe I b o (CONSUME_ONE_CHAR type p result str k) := by
  unfold CONSUME_ONE_CHAR
  refine safe_bind (safe_parser_consume h type hne) fun err => ?_
  cases err with
  | ok => exact hk
  | parser_syntax_error =>
    refine safe_bind (safe_err_message h _ _) fun _ => ?_
    cases p
    · exact safe_pure result
    · exact safe_pure result
    · exact safe_undefined
  | null_ptr_error =>
    refine safe_bind (safe_err_message h _ _) fun _ => ?_
    cases p
    · exact safe_pure result
    · exact safe_pure result
    · exact safe_undefined

theorem safe_CONSUME_INT_OR_NULL {α : Type} {I : pstate → Prop} {b o : Prop}
    (h : inv_ok I b) (out_int : Int) (result : α) {k : Int → M α}
    (hk : ∀ v, M.safe I b o (k v)) : M.safe I b o (CONSUME_INT_OR_NULL out_int result k) := by
  unfold CONSUME_INT_OR_NULL
  refine safe_bind (safe_peek h) fun tok => ?_
  split
  · split
    · exact safe_bind (safe_parser_consume h _ (by decide)) fun _ => hk _
    · split
      · exact safe_bind (safe_parser_consume h _ (by decide)) fun _ => hk _
      · exact safe_undefined
  · split
    · exact safe_bind (safe_parser_consume h _ (by decide)) fun _ => hk _
    · exact safe_err_return h _ _ _

theorem safe_CONSUME_RESERVED_IDENTIFIER {α : Type} {I : pstate → Prop} {b o : Prop}
    (h : inv_ok I b) (name : String) (result : α) {k : parser_err → M α}
    (hk : ∀ err, M.safe I b o (k err)) :
    M.safe I b o (CONSUME_RESERVED_IDENTIFIER name result k) := by
  unfold CONSUME_RESERVED_IDENTIFIER
  refine safe_bind (safe_peek h) fun tok => ?_
  split
  · exact safe_err_return h _ _ _
  · exact safe_bind (safe_parser_consume h _ (by decide)) hk
set_option maxRecDepth 4000 in
theorem safe_parse_stat_val {I : pstate → Prop} {b o : Prop} (h : inv_ok I b) :
    M.safe I b o parse_stat_val := by
  unfold parse_stat_val
  repeat' first
    | exact safe_pure _
    | exact safe_err_return h _ _ _
    | exact safe_parser_consume h _ (by decide)
    | exact safe_undefined
    | apply safe_CONSUME_ONE_CHAR h
    | apply safe_CONSUME_INT_OR_NULL h
    | apply safe_CONSUME_RESERVED_IDENTIFIER h
    | apply safe_bind
    | decide
    | split
    | intro _

theorem safe_parse_string_val {I : pstate → Prop} {b o : Prop} (h : inv_ok I b) :
    M.safe I b o parse_string_val := by
  unfold parse_string_val
  refine safe_bind (safe_parser_consume h _ (by decide)) fun _ => ?_
  refine safe_CONSUME_ONE_CHAR h _ (by decide) _ _ _ ?_
  refine safe_bind (safe_peek h) fun tok => ?_
  split
  · split
    · exact safe_undefined
    · exact safe_CONSUME_ONE_CHAR h _ (by decide) _ _ _ (safe_pure _)
  · exact safe_CONSUME_ONE_CHAR h _ (by decide) _ _ _ (safe_pure _)

theorem safe_parse_int_val {I : pstate → Prop} {b o : Prop} (h : inv_ok I b) :
    M.safe I b o parse_int_val := by
  unfold parse_int_val
  repeat' first
    | exact safe_pure _
    | exact safe_err_return h _ _ _
    | exact safe_parser_consume h _ (by decide)
    | exact safe_undefined
    | apply safe_CONSUME_ONE_CHAR h
    | apply safe_CONSUME_INT_OR_NULL h
    | apply safe_CONSUME_RESERVED_IDENTIFIER h
    | apply safe_bind
    | decide
    | split
    | intro _

set_option maxRecDepth 4000 in
theorem safe_parse_dice_val {I : pstate → Prop} {b o : Prop} (h : inv_ok I b) :
    M.safe I b o parse_dice_val := by
  unfold parse_dice_val
  repeat' first
    | exact safe_pure _
    | exact safe_err_return h _ _ _
    | exact safe_parser_consume h _ (by decide)
    | exact safe_undefined
    | apply safe_CONSUME_ONE_CHAR h
    | apply safe_CONSUME_INT_OR_NULL h
    | apply safe_CONSUME_RESERVED_IDENTIFIER h
    | apply safe_bind
    | decide
    | split
    | intro _

set_option maxRecDepth 4000 in
theorem safe_parse_deathsave_val {I : pstate → Prop} {b o : Prop} (h : inv_ok I b) :
    M.safe I b o parse_deathsave_val := by
  unfold parse_deathsave_val
  repeat' first
    | exact safe_pure _
    | exact safe_err_return h _ _ _
    | exact safe_parser_consume h _ (by decide)
    | exact safe_undefined
    | apply safe_CONSUME_ONE_CHAR h
    | apply safe_CONSUME_INT_OR_NULL h
    | apply safe_CONSUME_RESERVED_IDENTIFIER h
    | apply safe_bind
    | decide
    | split
    | intro _

set_option maxRecDepth 4000 in
theorem safe_parse_item_val_rest {I : pstate → Prop} {b o : Prop} (h : inv_ok I b)
    (result : item_t) : M.safe I b o (parse_item_val_rest result) := by
  unfold parse_item_val_rest
  repeat' first
    | exact safe_pure _
    | exact safe_err_return h _ _ _
    | exact safe_parser_consume h _ (by decide)
    | exact safe_undefined
    | apply safe_CONSUME_ONE_CHAR h
    | apply safe_CONSUME_INT_OR_NULL h
    | apply safe_CONSUME_RESERVED_IDENTIFIER h
    | apply safe_bind
    | decide
    | split
    | intro _

theorem safe_parse_item_val {I : pstate → Prop} {b o : Prop} (h : inv_ok I b) :
    M.safe I b o parse_item_val := by
  unfold parse_item_val
  refine safe_bind (safe_parser_consume h _ (by decide)) fun _ => ?_
  refine safe_CONSUME_ONE_CHAR h _ (by decide) _ _ _ ?_
  refine safe_CONSUME_RESERVED_IDENTIFIER h _ _ fun err => ?_
  cases err with
  | ok =>
    refine safe_CONSUME_ONE_CHAR h _ (by decide) _ _ _ ?_
    refine safe_bind (safe_peek h) fun tok => ?_
    split
    · split
      · exact safe_undefined
      · exact safe_parse_item_val_rest h _
    · exact safe_parse_item_val_rest h _
  | parser_syntax_error => exact safe_err_return h _ _ _
  | null_ptr_error => exact safe_err_return h _ _ _

theorem safe_parse_itemlist_loop {I : pstate → Prop} {b o : Prop} (h : inv_ok I b) (ho : o)
    (fuel : Nat) (result : itemlist_t) : M.safe I b o (parse_itemlist_loop fuel result) := by
  induction fuel generalizing result with
  | zero => exact safe_out_of_fuel ho
  | succ fuel ih =>
    unfold parse_itemlist_loop
    refine safe_bind (safe_peek h) fun tok => ?_
    split
    · split
      · exact safe_err_return h _ _ _
      · refine safe_bind (safe_parse_item_val h) fun item => ?_
        exact safe_CONSUME_ONE_CHAR h _ (by decide) _ _ _ (ih _)
    · exact safe_bind (safe_parser_consume h _ (by decide)) fun _ => safe_pure _

theorem safe_parse_itemlist_val {I : pstate → Prop} {b o : Prop} (h : inv_ok I b) (ho : o)
    (fuel : Nat) : M.safe I b o (parse_itemlist_val fuel) := by
  unfold parse_itemlist_val
  refine safe_bind (safe_parser_consume h _ (by decide)) fun _ => ?_
  exact safe_CONSUME_ONE_CHAR h _ (by decide) _ _ _ (safe_parse_itemlist_loop h ho _ _)

theorem safe_parse_field_end {I : pstate → Prop} {b o : Prop} (h : inv_ok I b)
    (result : field_t) : M.safe I b o (parse_field_end result) := by
  unfold parse_field_end
  refine safe_bind (safe_parser_consume h _ (by decide)) fun err => ?_
  cases err with
  | ok => exact safe_pure _
  | parser_syntax_error =>
    refine safe_bind (safe_err_message h _ _) fun _ => ?_
    dsimp only
    repeat' first
      | exact safe_pure _
      | exact safe_undefined
      | split
  | null_ptr_error =>
    refine safe_bind (safe_err_message h _ _) fun _ => ?_
    dsimp only
    repeat' first
      | exact safe_pure _
      | exact safe_undefined
      | split

theorem safe_parse_field_of {I : pstate → Prop} {b o : Prop} (h : inv_ok I b)
    {fuel : Nat} (hl : M.safe I b o (parse_itemlist_val fuel)) :
    M.safe I b o (parse_field fuel) := by
  unfold parse_field
  refine safe_bind (safe_parser_consume h _ (by decide)) fun err => ?_
  cases err with
  | ok =>
    refine safe_bind (safe_peek h) fun tok => ?_
    split
    · refine safe_bind (safe_parser_consume h _ (by decide)) fun _ => ?_
      refine safe_CONSUME_ONE_CHAR h _ (by decide) _ _ _ ?_
      refine safe_bind (safe_peek h) fun tok2 => ?_
      split
      · exact safe_bind (safe_parse_stat_val h) fun _ => safe_parse_field_end h _
      · exact safe_bind (safe_parse_string_val h) fun _ => safe_parse_field_end h _
      · exact safe_bind (safe_parse_int_val h) fun _ => safe_parse_field_end h _
      · exact safe_bind (safe_parse_dice_val h) fun _ => safe_parse_field_end h _
      · exact safe_bind (safe_parse_deathsave_val h) fun _ => safe_parse_field_end h _
      · exact safe_bind hl fun _ => safe_parse_field_end h _
      · exact safe_bind (safe_parse_item_val h) fun _ => safe_parse_field_end h _
      · exact safe_err_return h _ _ _
    · exact safe_err_return h _ _ _
  | parser_syntax_error => exact safe_err_return h _ _ _
  | null_ptr_error => exact safe_err_return h _ _ _

theorem safe_parse_field {I : pstate → Prop} {b o : Prop} (h : inv_ok I b) (ho : o)
    (fuel : Nat) : M.safe I b o (parse_field fuel) :=
  safe_parse_field_of h (safe_parse_itemlist_val h ho fuel)

theorem safe_parse_section_loop {I : pstate → Prop} {b o : Prop} (h : inv_ok I b) (ho : o)
    (n fuel : Nat) (result : section_t) :
    M.safe I b o (parse_section_loop n fuel result) := by
  induction fuel generalizing result with
  | zero => exact safe_out_of_fuel ho
  | succ fuel ih =>
    unfold parse_section_loop
    refine safe_bind (safe_peek h) fun tok => ?_
    split
    · split
      · exact safe_err_return h _ _ _
      · refine safe_bind (safe_parse_field h ho n) fun curr_field => ?_
        split
        · refine safe_bind (safe_err_message h _ _) fun _ => ?_
          exact safe_exit 1
        · exact safe_CONSUME_ONE_CHAR h _ (by decide) _ _ _ (ih _)
    · exact safe_bind (safe_parser_consume h _ (by decide)) fun _ => safe_pure _

theorem safe_parse_section {I : pstate → Prop} {b o : Prop} (h : inv_ok I b) (ho : o)
    (fuel : Nat) :
    M.safe I b o (parse_section fuel) := by
  unfold parse_section
  refine safe_bind (safe_parser_consume h _ (by decide)) fun err => ?_
  cases err with
  | ok =>
    refine safe_bind (safe_peek h) fun tok => ?_
    split
    · refine safe_bind (safe_parser_consume h _ (by decide)) fun _ => ?_
      exact safe_CONSUME_ONE_CHAR h _ (by decide) _ _ _ (safe_parse_section_loop h ho _ _ _)
    · exact safe_err_return h _ _ _
  | parser_syntax_error => exact safe_err_return h _ _ _
  | null_ptr_error => exact safe_err_return h _ _ _


/-! ## Reads of the token buffer -/

theorem buffer_ok_last {toks : List token_t} (h : buffer_ok toks) {i : Nat} {t : token_t}
    (ht : toks[i]? = some t) (hi : i + 1 = toks.length) : t.type = .eof := by
  have h1 := h.1
  rw [List.getLast?_eq_getElem?, ← hi, Nat.add_sub_cancel, ht] at h1
  simpa using h1

theorem buffer_ok_only_last {toks : List token_t} (h : buffer_ok toks) {i : Nat} {t : token_t}
    (ht : toks[i]? = some t) (he : t.type = .eof) : i + 1 = toks.length := by
  by_contra hne
  have hlt : i < toks.length := (List.getElem?_eq_some.mp ht).1
  have hd : toks.dropLast[i]? = some t := by
    rw [List.getElem?_dropLast, if_pos (by omega), ht]
  exact h.2 t (List.getElem?_mem hd) he

theorem cur_tok_in_buffer {toks : List token_t} {s : pstate} (hI : in_buffer toks s) :
    cur_tok s = toks[s.this.tok_i]? := by
  simp only [cur_tok, tok_at, hI.1]

/-- In a buffer that ends in its only end-of-input token, "the cursor is the
index of a token" is kept by every step but the consume of end-of-input, and
a token lies under such a cursor. -/
theorem inv_ok_in_buffer {toks : List token_t} (h : buffer_ok toks) :
    inv_ok (in_buffer toks) False := by
  refine ⟨?_, ?_, ?_⟩
  · intro s hI hc
    rw [cur_tok_in_buffer hI] at hc
    have hlt : s.this.tok_i < toks.length := by rw [← hI.2.1]; exact hI.2.2
    rw [List.getElem?_eq_getElem hlt] at hc
    exact Option.noConfusion hc
  · intro s t hI hc hne
    rw [cur_tok_in_buffer hI] at hc
    refine ⟨hI.1, hI.2.1, ?_⟩
    have hlt : s.this.tok_i < toks.length := by rw [← hI.2.1]; exact hI.2.2
    have : s.this.tok_i + 1 ≠ toks.length := fun he => hne (buffer_ok_last h hc he)
    show s.this.tok_i + 1 < s.this.token_vec.token_count
    rw [hI.2.1]
    omega
  · intro s err str hI
    exact hI

/-- The section loop of `parser_parse`, started with the cursor on a token of
a buffer that ends in its only end-of-input token, never reads a token that
is not there, and leaves the cursor past the last token only by its final
consume. -/
theorem parser_parse_loop_reads {toks : List token_t} (h : buffer_ok toks) (n fuel : Nat) :
    ∀ (result : charsheet_t) (s : pstate), in_buffer toks s →
      match parser_parse_loop n fuel result s with
      | .ret d s1 => document_post toks d s1
      | .exited _ s1 => in_buffer toks s1
      | .bad_read => False
      | .undefined => True
      | .out_of_fuel => True := by
  induction fuel with
  | zero =>
    intro result s _
    simp only [parser_parse_loop]
  | succ fuel ih =>
    intro result s hI
    have hlt : s.this.tok_i < toks.length := by rw [← hI.2.1]; exact hI.2.2
    have hc : cur_tok s = some toks[s.this.tok_i] := by
      rw [cur_tok_in_buffer hI, List.getElem?_eq_getElem hlt]
    have hget : toks[s.this.tok_i]? = some toks[s.this.tok_i] := List.getElem?_eq_getElem hlt
    have hp : peek s = .ret toks[s.this.tok_i] s := by simp only [peek, hc]
    unfold parser_parse_loop
    simp only [M.bind, hp]
    by_cases heof : toks[s.this.tok_i].type = .eof
    · have hcons : parser_consume .eof s = .ret .ok (advance s) := by
        simp only [parser_consume, hI.1, hget, heof, if_true]
      simp only [heof, ne_eq, not_true_eq_false, if_false, M.bind, hcons, M.pure]
      refine ⟨hI.1, ?_, ?_⟩
      · show s.this.tok_i + 1 ≤ toks.length
        omega
      · have := buffer_ok_only_last h hget heof
        constructor
        · intro _; rfl
        · intro _; exact this
    · simp only [ne_eq, heof, not_false_eq_true, if_true]
      have hsafe := safe_parse_section (o := True) (inv_ok_in_buffer h) trivial n s hI
      simp only [M.bind]
      cases hsec : parse_section n s with
      | ret sec s1 =>
        rw [hsec] at hsafe
        simp only
        have hlt1 : s1.this.tok_i < toks.length := by rw [← hsafe.2.1]; exact hsafe.2.2
        cases hid : sec.identifier with
        | null =>
          simp only [M.pure]
          refine ⟨hsafe.1, Nat.le_of_lt hlt1, ?_⟩
          constructor
          · intro he; omega
          · intro he; exact absurd he (by simp)
        | live v => exact ih _ s1 hsafe
        | dangling => exact ih _ s1 hsafe
      | exited c s1 => rw [hsec] at hsafe; exact hsafe
      | bad_read => rw [hsec] at hsafe; exact hsafe
      | undefined => trivial
      | out_of_fuel => trivial

/-- C23: for every token buffer that is not empty, ends in end-of-input and
holds no other end-of-input token, `parser_parse` started with the cursor on
a token of the buffer never reads a token that is not in the array (every
read is at an index below `token_count`).  When it returns, the cursor is
past the end-of-input token exactly if a Document is returned, that is after
the final consume; and every rule it calls (`parse_section`, `parse_field`
and the seven value rules), started with the cursor on a token, reads only
tokens of the array and ends with the cursor still on a token. -/
theorem parser_parse_reads_in_buffer (toks : List token_t) (fuel : Nat) (s : pstate)
    (hwf : buffer_ok toks) (hs : in_buffer toks s) :
    parser_parse fuel s ≠ .bad_read ∧
    (∀ d s1, parser_parse fuel s = .ret d s1 → document_post toks d s1) ∧
    (∀ c s1, parser_parse fuel s = .exited c s1 → in_buffer toks s1) ∧
    M.safe (in_buffer toks) False True (parse_section fuel) ∧
    M.safe (in_buffer toks) False True (parse_field fuel) ∧
    M.safe (in_buffer toks) False True parse_stat_val ∧
    M.safe (in_buffer toks) False True parse_string_val ∧
    M.safe (in_buffer toks) False True parse_int_val ∧
    M.safe (in_buffer toks) False True parse_dice_val ∧
    M.safe (in_buffer toks) False True parse_deathsave_val ∧
    M.safe (in_buffer toks) False True (parse_itemlist_val fuel) ∧
    M.safe (in_buffer toks) False True parse_item_val := by
  have hinv := inv_ok_in_buffer hwf
  have key := parser_parse_loop_reads hwf fuel fuel
    { filename := s.this.src_filename, sections := .null, section_count := 0 } s hs
  have hpp : parser_parse fuel s = parser_parse_loop fuel fuel
    { filename := s.this.src_filename, sections := .null, section_count := 0 } s := rfl
  rw [← hpp] at key
  refine ⟨?_, ?_, ?_, safe_parse_section hinv trivial fuel, safe_parse_field hinv trivial fuel,
    safe_parse_stat_val hinv, safe_parse_string_val hinv, safe_parse_int_val hinv,
    safe_parse_dice_val hinv, safe_parse_deathsave_val hinv,
    safe_parse_itemlist_val hinv trivial fuel, safe_parse_item_val hinv⟩
  · intro hb
    rw [hb] at key
    exact key
  · intro d s1 hr
    rw [hr] at key
    exact key
  · intro c s1 hr
    rw [hr] at key
    exact key

/-- Witness of C23: the buffer of
`@section Foo: @field hp: %int[10];; @end-section`, 14 tokens of which the
last is end-of-input. -/
theorem parser_parse_reads_in_buffer_witness :
    parser_parse 2 (parser_on toks_foo_hp_two_semicolons) ≠ .bad_read ∧
    (∀ d s1, parser_parse 2 (parser_on toks_foo_hp_two_semicolons) = .ret d s1 →
      document_post toks_foo_hp_two_semicolons d s1) ∧
    (∀ c s1, parser_parse 2 (parser_on toks_foo_hp_two_semicolons) = .exited c s1 →
      in_buffer toks_foo_hp_two_semicolons s1) ∧
    M.safe (in_buffer toks_foo_hp_two_semicolons) False True (parse_section 2) ∧
    M.safe (in_buffer toks_foo_hp_two_semicolons) False True (parse_field 2) ∧
    M.safe (in_buffer toks_foo_hp_two_semicolons) False True parse_stat_val ∧
    M.safe (in_buffer toks_foo_hp_two_semicolons) False True parse_string_val ∧
    M.safe (in_buffer toks_foo_hp_two_semicolons) False True parse_int_val ∧
    M.safe (in_buffer toks_foo_hp_two_semicolons) False True parse_dice_val ∧
    M.safe (in_buffer toks_foo_hp_two_semicolons) False True parse_deathsave_val ∧
    M.safe (in_buffer toks_foo_hp_two_semicolons) False True (parse_itemlist_val 2) ∧
    M.safe (in_buffer toks_foo_hp_two_semicolons) False True parse_item_val :=
  parser_parse_reads_in_buffer toks_foo_hp_two_semicolons 2
    (parser_on toks_foo_hp_two_semicolons) (by decide) (by decide)

/-! ## Termination -/

theorem room_advance_le (s : pstate) : room (advance s) ≤ room s := by
  unfold room advance
  cases s.this.token_vec.tokens with
  | none => exact Nat.le_refl _
  | some toks =>
    show toks.length - (s.this.tok_i + 1) ≤ toks.length - s.this.tok_i
    omega

theorem room_advance_lt {s : pstate} {t : token_t} (h : cur_tok s = some t) :
    room (advance s) < room s := by
  unfold cur_tok tok_at at h
  unfold room advance
  cases hb : s.this.token_vec.tokens with
  | none => rw [hb] at h; exact Option.noConfusion h
  | some toks =>
    rw [hb] at h
    have hlt : s.this.tok_i < toks.length := by
      by_contra hge
      have h2 : toks[s.this.tok_i]? = some t := h
      rw [List.getElem?_eq_none (Nat.le_of_not_lt hge)] at h2
      exact Option.noConfusion h2
    show toks.length - (s.this.tok_i + 1) < toks.length - s.this.tok_i
    omega

theorem cur_tok_of_kind_at {s : pstate} {k : token_type}
    (h : kind_at s s.this.tok_i = some k) : ∃ t, cur_tok s = some t := by
  unfold kind_at at h
  unfold cur_tok
  cases ht : tok_at s s.this.tok_i with
  | none => rw [ht] at h; exact Option.noConfusion h
  | some t => exact ⟨t, rfl⟩

theorem room_of_cursor_kept {s s1 : pstate} (h : cursor_kept s s1) : room s1 ≤ room s := by
  unfold room
  rw [h.1]
  cases s.this.token_vec.tokens with
  | none => exact Nat.le_refl _
  | some toks =>
    have := h.2
    show toks.length - s1.this.tok_i ≤ toks.length - s.this.tok_i
    omega

/-- Fewer than `f` tokens are left from the cursor on: the property is kept
by every step of the parser. -/
theorem inv_ok_room (f : Nat) : inv_ok (fun s => room s < f) True :=
  ⟨fun _ _ _ => trivial,
   fun s _ hI _ _ => Nat.lt_of_le_of_lt (room_advance_le s) hI,
   fun _ _ _ hI => hI⟩

theorem noof_of_safe {α : Type} {I : pstate → Prop} {b : Prop} {m : M α}
    (h : M.safe I b False m) {s : pstate} (hs : I s) : m s ≠ .out_of_fuel := by
  intro hm
  have := h s hs
  rw [hm] at this
  exact this

/-- One use of the macro `CONSUME_ONE_CHAR`: either the token under the
cursor has the expected kind, the cursor moves past it and the rest of the
function runs; or the rest of the function plays no part. -/
theorem CONSUME_ONE_CHAR_step {α β : Type} (type : token_type) (p : ptr β) (result : α)
    (str : String) (k : M α) (s : pstate) :
    (kind_at s s.this.tok_i = some type ∧
      CONSUME_ONE_CHAR type p result str k s = k (advance s)) ∨
    (∀ k2 : M α, CONSUME_ONE_CHAR type p result str k s =
      CONSUME_ONE_CHAR type p result str k2 s) := by
  unfold CONSUME_ONE_CHAR M.bind
  cases hc : parser_consume type s with
  | ret e s2 =>
    rcases parser_consume_cases hc with ⟨rfl, hk1, rfl⟩ | ⟨hne2, _, rfl⟩
    · exact Or.inl ⟨hk1, rfl⟩
    · right
      intro k2
      cases e with
      | ok => exact absurd rfl hne2
      | parser_syntax_error => rfl
      | null_ptr_error => rfl
  | exited c s2 => exact Or.inr fun _ => rfl
  | bad_read => exact Or.inr fun _ => rfl
  | undefined => exact Or.inr fun _ => rfl
  | out_of_fuel => exact Or.inr fun _ => rfl

/-- The macro `CONSUME_ONE_CHAR` when the rest of the function is only known
to be safe in the states reached by a successful `consume`. -/
theorem safe_CONSUME_ONE_CHAR_adv {α β : Type} {I J : pstate → Prop} {b o : Prop}
    (h : inv_ok I b) (type : token_type) (hne : type ≠ .eof) (p : ptr β) (result : α)
    (str : String) {k : M α}
    (hJ : ∀ s t, I s → cur_tok s = some t → J (advance s)) (hJI : ∀ s, J s → I s)
    (hk : M.safe J b o k) :
    M.safe I b o (CONSUME_ONE_CHAR type p result str k) := by
  intro s hI
  rcases CONSUME_ONE_CHAR_step type p result str k s with ⟨hk1, he⟩ | he
  · obtain ⟨t, ht⟩ := cur_tok_of_kind_at hk1
    have h2 := hk (advance s) (hJ s t hI ht)
    rw [he]
    cases hk2 : k (advance s) with
    | ret a s3 => rw [hk2] at h2; exact hJI _ h2
    | exited c s3 => rw [hk2] at h2; exact hJI _ h2
    | bad_read => rw [hk2] at h2; exact h2
    | undefined => trivial
    | out_of_fuel => rw [hk2] at h2; exact h2
  · rw [he fun _ => .undefined]
    exact safe_CONSUME_ONE_CHAR h type hne p result str safe_undefined s hI

/-- The item loop does not run out of iterations when it is given at least as
many as there are tokens left. -/
theorem fuel_parse_itemlist_loop (fuel : Nat) :
    ∀ (f : Nat), f ≤ fuel → ∀ (result : itemlist_t),
      M.safe (fun s => room s < f) True False (parse_itemlist_loop fuel result) := by
  induction fuel with
  | zero =>
    intro f hf result s hs
    exact absurd hs (by omega)
  | succ fuel ih =>
    intro f hf result
    have h := inv_ok_room f
    unfold parse_itemlist_loop
    refine safe_bind (safe_peek h) fun tok => ?_
    split
    · split
      · exact safe_err_return h _ _ _
      · refine safe_bind (safe_parse_item_val h) fun item => ?_
        refine safe_CONSUME_ONE_CHAR_adv (J := fun s => room s < f - 1) h _ (by decide) _ _ _
          ?_ ?_ (ih (f - 1) (by omega) _)
        · intro s t hI hc
          have := room_advance_lt hc
          show room (advance s) < f - 1
          have hI2 : room s < f := hI
          omega
        · intro s hJ
          have hJ2 : room s < f - 1 := hJ
          show room s < f
          omega
    · exact safe_bind (safe_parser_consume h _ (by decide)) fun _ => safe_pure _

theorem fuel_parse_itemlist_val (fuel f : Nat) (hf : f ≤ fuel) :
    M.safe (fun s => room s < f) True False (parse_itemlist_val fuel) := by
  have h := inv_ok_room f
  unfold parse_itemlist_val
  refine safe_bind (safe_parser_consume h _ (by decide)) fun _ => ?_
  exact safe_CONSUME_ONE_CHAR h _ (by decide) _ _ _ (fuel_parse_itemlist_loop fuel f hf _)

theorem fuel_parse_field (fuel f : Nat) (hf : f ≤ fuel) :
    M.safe (fun s => room s < f) True False (parse_field fuel) :=
  safe_parse_field_of (inv_ok_room f) (fuel_parse_itemlist_val fuel f hf)

/-- The field loop does not run out of iterations when it is given at least
as many as there are tokens left. -/
theorem fuel_parse_section_loop (n fuel : Nat) :
    ∀ (f : Nat), f ≤ fuel → f ≤ n → ∀ (result : section_t),
      M.safe (fun s => room s < f) True False (parse_section_loop n fuel result) := by
  induction fuel with
  | zero =>
    intro f hf _ result s hs
    exact absurd hs (by omega)
  | succ fuel ih =>
    intro f hf hn result
    have h := inv_ok_room f
    unfold parse_section_loop
    refine safe_bind (safe_peek h) fun tok => ?_
    split
    · split
      · exact safe_err_return h _ _ _
      · refine safe_bind (fuel_parse_field n f hn) fun curr_field => ?_
        split
        · refine safe_bind (safe_err_message h _ _) fun _ => ?_
          exact safe_exit 1
        · refine safe_CONSUME_ONE_CHAR_adv (J := fun s => room s < f - 1) h _ (by decide) _ _ _
            ?_ ?_ (ih (f - 1) (by omega) (by omega) _)
          · intro s t hI hc
            have := room_advance_lt hc
            show room (advance s) < f - 1
            have hI2 : room s < f := hI
            omega
          · intro s hJ
            have hJ2 : room s < f - 1 := hJ
            show room s < f
            omega
    · exact safe_bind (safe_parser_consume h _ (by decide)) fun _ => safe_pure _

theorem fuel_parse_section (fuel f : Nat) (hf : f ≤ fuel) :
    M.safe (fun s => room s < f) True False (parse_section fuel) := by
  have h := inv_ok_room f
  unfold parse_section
  refine safe_bind (safe_parser_consume h _ (by decide)) fun err => ?_
  cases err with
  | ok =>
    refine safe_bind (safe_peek h) fun tok => ?_
    split
    · refine safe_bind (safe_parser_consume h _ (by decide)) fun _ => ?_
      exact safe_CONSUME_ONE_CHAR h _ (by decide) _ _ _ (fuel_parse_section_loop fuel fuel f hf hf _)
    · exact safe_err_return h _ _ _
  | parser_syntax_error => exact safe_err_return h _ _ _
  | null_ptr_error => exact safe_err_return h _ _ _

theorem advanced_of_consume {s s1 : pstate} {k : token_type} (hck : cursor_kept s s1)
    (hk : kind_at s1 s1.this.tok_i = some k) : advanced s (advance s1) := by
  obtain ⟨t, ht⟩ := cur_tok_of_kind_at hk
  have h1 := room_advance_lt ht
  have h2 := room_of_cursor_kept hck
  refine ⟨hck.1, ?_, Nat.lt_of_lt_of_le h1 h2⟩
  show s.this.tok_i < s1.this.tok_i + 1
  exact Nat.lt_succ_of_le hck.2

/-- Each iteration of the item loop of `parse_itemlist_val` ends the loop or
advances the cursor. -/
theorem parse_itemlist_loop_iteration (result : itemlist_t) (s : pstate) :
    iteration parse_itemlist_loop result s := by
  have hfin : ∀ x, (∀ f, parse_itemlist_loop (f + 1) result s = x) → x ≠ .out_of_fuel := by
    intro x hx hoof
    have := noof_of_safe
      (fuel_parse_itemlist_loop (room s + 1) (room s + 1) (Nat.le_refl _) result)
      (s := s) (Nat.lt_succ_self _)
    rw [hx, hoof] at this
    exact this rfl
  have hend : (∀ f, parse_itemlist_loop (f + 1) result s
      = parse_itemlist_loop (0 + 1) result s) → iteration parse_itemlist_loop result s :=
    fun he => Or.inl ⟨_, hfin _ he, he⟩
  cases hp : peek s with
  | ret tok s' =>
    obtain ⟨rfl, _⟩ := peek_ret hp
    by_cases h1 : tok.type = .close_sqr_bracket
    · refine hend fun f => ?_
      simp only [parse_itemlist_loop, M.bind, hp, h1, ne_eq, not_true_eq_false, if_false]
    · by_cases h2 : tok.type = .eof
      · refine hend fun f => ?_
        simp only [parse_itemlist_loop, M.bind, hp, h1, h2, ne_eq, not_false_eq_true, if_true]
      · cases hi : parse_item_val s' with
        | ret item s1 =>
          have hck : cursor_kept s' s1 :=
            ret_of_sat (e := True) (sat_parse_item_val step_rel_cursor_kept) hi
          cases hc : parser_consume .semicolon s1 with
          | ret e s2 =>
            rcases parser_consume_cases hc with ⟨rfl, hk1, rfl⟩ | ⟨hne, _, rfl⟩
            · right
              refine ⟨{ items := realloc_push result.items item,
                        item_count := result.item_count + 1 }, advance s1,
                advanced_of_consume hck hk1, fun f => ?_⟩
              simp only [parse_itemlist_loop, M.bind, hp, h1, h2, ne_eq, not_false_eq_true,
                if_true, if_false, hi, CONSUME_ONE_CHAR, hc]
            · refine hend fun f => ?_
              cases e with
              | ok => exact absurd rfl hne
              | _ =>
                simp only [parse_itemlist_loop, M.bind, hp, h1, h2, ne_eq, not_false_eq_true,
                  if_true, if_false, hi, CONSUME_ONE_CHAR, hc]
          | _ =>
            refine hend fun f => ?_
            simp only [parse_itemlist_loop, M.bind, hp, h1, h2, ne_eq, not_false_eq_true,
              if_true, if_false, hi, CONSUME_ONE_CHAR, hc]
        | _ =>
          refine hend fun f => ?_
          simp only [parse_itemlist_loop, M.bind, hp, h1, h2, ne_eq, not_false_eq_true,
            if_true, if_false, hi]
  | _ =>
    refine hend fun f => ?_
    simp only [parse_itemlist_loop, M.bind, hp]

/-- Each iteration of the field loop of `parse_section` ends the loop or
advances the cursor, when the item loops are given at least as many
iterations as there are tokens left. -/
theorem parse_section_loop_iteration (n : Nat) (result : section_t) (s : pstate)
    (hn : room s < n) : iteration (parse_section_loop n) result s := by
  have hfin : ∀ x, (∀ f, parse_section_loop n (f + 1) result s = x) → x ≠ .out_of_fuel := by
    intro x hx hoof
    have := noof_of_safe
      (fuel_parse_section_loop n (room s + 1) (room s + 1) (Nat.le_refl _) hn result)
      (s := s) (Nat.lt_succ_self _)
    rw [hx, hoof] at this
    exact this rfl
  have hend : (∀ f, parse_section_loop n (f + 1) result s
      = parse_section_loop n (0 + 1) result s) → iteration (parse_section_loop n) result s :=
    fun he => Or.inl ⟨_, hfin _ he, he⟩
  cases hp : peek s with
  | ret tok s' =>
    obtain ⟨rfl, _⟩ := peek_ret hp
    by_cases h1 : tok.type = .end_section
    · refine hend fun f => ?_
      simp only [parse_section_loop, M.bind, hp, h1, ne_eq, not_true_eq_false, if_false]
    · by_cases h2 : tok.type = .eof
      · refine hend fun f => ?_
        simp only [parse_section_loop, M.bind, hp, h1, h2, ne_eq, not_false_eq_true, if_true]
      · cases hi : parse_field n s' with
        | ret fld s1 =>
          have hck : cursor_kept s' s1 :=
            ret_of_sat (e := True) (sat_parse_field step_rel_cursor_kept n) hi
          by_cases h3 : fld.type = .syntax_error
          · refine hend fun f => ?_
            simp only [parse_section_loop, M.bind, hp, h1, h2, ne_eq, not_false_eq_true,
              if_true, if_false, hi, h3]
          · cases hc : parser_consume .semicolon s1 with
            | ret e s2 =>
              rcases parser_consume_cases hc with ⟨rfl, hk1, rfl⟩ | ⟨hne, _, rfl⟩
              · right
                refine ⟨{ result with
                          field_count := result.field_count + 1
                          fields := realloc_push result.fields fld }, advance s1,
                  advanced_of_consume hck hk1, fun f => ?_⟩
                simp only [parse_section_loop, M.bind, hp, h1, h2, ne_eq, not_false_eq_true,
                  if_true, if_false, hi, h3, CONSUME_ONE_CHAR, hc]
              · refine hend fun f => ?_
                cases e with
                | ok => exact absurd rfl hne
                | _ =>
                  simp only [parse_section_loop, M.bind, hp, h1, h2, ne_eq, not_false_eq_true,
                    if_true, if_false, hi, h3, CONSUME_ONE_CHAR, hc]
            | _ =>
              refine hend fun f => ?_
              simp only [parse_section_loop, M.bind, hp, h1, h2, ne_eq, not_false_eq_true,
                if_true, if_false, hi, h3, CONSUME_ONE_CHAR, hc]
        | _ =>
          refine hend fun f => ?_
          simp only [parse_section_loop, M.bind, hp, h1, h2, ne_eq, not_false_eq_true,
            if_true, if_false, hi]
  | _ =>
    refine hend fun f => ?_
    simp only [parse_section_loop, M.bind, hp]

/-- A section that `parse_section` returns with an identifier was begun by an
`@section` keyword, which the cursor has passed. -/
theorem parse_section_progress {n : Nat} {s s1 : pstate} {sec : section_t}
    (h : parse_section n s = .ret sec s1) (hid : sec.identifier ≠ .null) : advanced s s1 := by
  unfold parse_section at h
  obtain ⟨err, s2, hc, hk⟩ := bind_ret h
  rcases parser_consume_cases hc with ⟨rfl, hk1, rfl⟩ | ⟨hne, _, rfl⟩
  · have h0 := step_rel_cursor_kept
    have hck : cursor_kept (advance s) s1 := by
      refine ret_of_sat (e := True) ?_ hk
      refine sat_bind h0 (sat_peek h0) fun tok => ?_
      split
      · refine sat_bind h0 (sat_parser_consume h0 _) fun _ => ?_
        exact sat_CONSUME_ONE_CHAR h0 _ _ _ _ (sat_parse_section_loop h0 _ _ _)
      · exact sat_err_return h0 _ _ _
    obtain ⟨t, ht⟩ := cur_tok_of_kind_at hk1
    have h1 := room_advance_lt ht
    have h2 := room_of_cursor_kept hck
    refine ⟨hck.1, ?_, Nat.lt_of_le_of_lt h2 h1⟩
    have : s.this.tok_i + 1 ≤ s1.this.tok_i := hck.2
    omega
  · cases err with
    | ok => exact absurd rfl hne
    | parser_syntax_error => exact absurd (by rw [(err_return_ret hk).1]) hid
    | null_ptr_error => exact absurd (by rw [(err_return_ret hk).1]) hid

theorem parser_consume_noof (k : token_type) (s : pstate) :
    parser_consume k s ≠ .out_of_fuel := by
  unfold parser_consume
  cases s.this.token_vec.tokens with
  | none => simp
  | some toks =>
    simp only
    cases toks[s.this.tok_i]? with
    | none => simp
    | some t =>
      simp only
      split <;> simp

/-- Each iteration of the section loop of `parser_parse` ends the loop or
advances the cursor, when the loops of the sections are given at least as
many iterations as there are tokens left. -/
theorem parser_parse_loop_iteration (n : Nat) (result : charsheet_t) (s : pstate)
    (hn : room s < n) : iteration (parser_parse_loop n) result s := by
  have hend : parser_parse_loop n (0 + 1) result s ≠ .out_of_fuel →
      (∀ f, parser_parse_loop n (f + 1) result s = parser_parse_loop n (0 + 1) result s) →
      iteration (parser_parse_loop n) result s :=
    fun hx he => Or.inl ⟨_, hx, he⟩
  cases hp : peek s with
  | ret tok s' =>
    obtain ⟨rfl, _⟩ := peek_ret hp
    by_cases h1 : tok.type = .eof
    · refine hend ?_ fun f => ?_
      · simp only [parser_parse_loop, M.bind, hp, h1, ne_eq, not_true_eq_false, if_false]
        cases hc : parser_consume .eof s' with
        | ret e s2 => cases e <;> simp [err_return, err_message, M.pure, M.bind]
        | out_of_fuel => exact absurd hc (parser_consume_noof _ _)
        | _ => simp
      · simp only [parser_parse_loop, M.bind, hp, h1, ne_eq, not_true_eq_false, if_false]
    · cases hi : parse_section n s' with
      | ret sec s1 =>
        cases hid : sec.identifier with
        | null =>
          refine hend ?_ fun f => ?_
          · simp [parser_parse_loop, M.bind, hp, h1, hi, hid, M.pure]
          · simp only [parser_parse_loop, M.bind, hp, h1, ne_eq, not_false_eq_true, if_true,
              hi, hid]
        | live v =>
          right
          refine ⟨{ result with
                    section_count := result.section_count + 1
                    sections := realloc_push result.sections sec }, s1,
            parse_section_progress hi (by rw [hid]; simp), fun f => ?_⟩
          simp only [parser_parse_loop, M.bind, hp, h1, ne_eq, not_false_eq_true, if_true,
            hi, hid]
        | dangling =>
          right
          refine ⟨{ result with
                    section_count := result.section_count + 1
                    sections := realloc_push result.sections sec }, s1,
            parse_section_progress hi (by rw [hid]; simp), fun f => ?_⟩
          simp only [parser_parse_loop, M.bind, hp, h1, ne_eq, not_false_eq_true, if_true,
            hi, hid]
      | out_of_fuel =>
        exact absurd hi (noof_of_safe (fuel_parse_section n n (Nat.le_refl _)) hn)
      | _ =>
        refine hend ?_ fun f => ?_
        · simp [parser_parse_loop, M.bind, hp, h1, hi]
        · simp only [parser_parse_loop, M.bind, hp, h1, ne_eq, not_false_eq_true, if_true, hi]
  | out_of_fuel =>
    unfold peek at hp
    split at hp <;> exact absurd hp (by simp)
  | _ =>
    refine hend ?_ fun f => ?_
    · simp [parser_parse_loop, M.bind, hp]
    · simp only [parser_parse_loop, M.bind, hp]

/-- A loop of which each iteration ends it or advances the cursor does not
run out of iterations when given more than there are tokens left. -/
theorem loop_terminates {α ρ : Type} (loop : Nat → ρ → M α) (n : Nat)
    (hit : ∀ result s, room s < n → iteration loop result s) :
    ∀ (f : Nat) (result : ρ) (s : pstate), room s < n → room s < f →
      loop f result s ≠ .out_of_fuel := by
  intro f
  induction f with
  | zero =>
    intro result s _ hf
    exact absurd hf (by omega)
  | succ f ih =>
    intro result s hn hf
    rcases hit result s hn with ⟨x, hx, he⟩ | ⟨result1, s1, hadv, he⟩
    · rw [he f]
      exact hx
    · rw [he f]
      have := hadv.2.2
      exact ih result1 s1 (by omega) (by omega)

/-- C24: `parser_parse` terminates on every finite token buffer, whatever its
tokens: run with more iterations allowed to each loop than there are tokens
from the cursor to the end of the buffer, it does not run out of iterations;
and on a buffer that ends in its only end-of-input token, the cursor standing
on a token, it does not read outside the buffer either.  Each iteration of
the section loop, of the field loop of `parse_section` and of the item loop
of `parse_itemlist_val` either ends the loop (with the same outcome however
many further iterations are allowed) or goes on to the next iteration with
the cursor advanced by at least one token. -/
theorem parser_parse_terminates (fuel : Nat) (s : pstate) (h : room s < fuel) :
    parser_parse fuel s ≠ .out_of_fuel ∧
    (∀ toks, buffer_ok toks → in_buffer toks s → parser_parse fuel s ≠ .bad_read) ∧
    (∀ result, iteration (parser_parse_loop fuel) result s) ∧
    (∀ result, iteration (parse_section_loop fuel) result s) ∧
    (∀ result, iteration parse_itemlist_loop result s) := by
  refine ⟨?_, ?_, fun result => parser_parse_loop_iteration fuel result s h,
    fun result => parse_section_loop_iteration fuel result s h,
    fun result => parse_itemlist_loop_iteration result s⟩
  · exact loop_terminates (parser_parse_loop fuel) fuel
      (fun result s1 h1 => parser_parse_loop_iteration fuel result s1 h1) fuel _ s h h
  · intro toks hwf hs hb
    have key := parser_parse_loop_reads hwf fuel fuel
      { filename := s.this.src_filename, sections := .null, section_count := 0 } s hs
    have hpp : parser_parse fuel s = parser_parse_loop fuel fuel
      { filename := s.this.src_filename, sections := .null, section_count := 0 } s := rfl
    rw [← hpp, hb] at key
    exact key

/-- Witness of C24: the 14 tokens of
`@section Foo: @field hp: %int[10];; @end-section`, with 15 iterations
allowed. -/
theorem parser_parse_terminates_witness :
    parser_parse 15 (parser_on toks_foo_hp_two_semicolons) ≠ .out_of_fuel ∧
    (∀ toks, buffer_ok toks → in_buffer toks (parser_on toks_foo_hp_two_semicolons) →
      parser_parse 15 (parser_on toks_foo_hp_two_semicolons) ≠ .bad_read) ∧
    (∀ result, iteration (parser_parse_loop 15) result (parser_on toks_foo_hp_two_semicolons)) ∧
    (∀ result, iteration (parse_section_loop 15) result (parser_on toks_foo_hp_two_semicolons)) ∧
    (∀ result, iteration parse_itemlist_loop result (parser_on toks_foo_hp_two_semicolons)) :=
  parser_parse_terminates 15 (parser_on toks_foo_hp_two_semicolons) (by decide)

end Dndml

namespace Tryptobot

/-- C19 (the code at the failing inputs): `is_valid_diceroll_str` returns 1
for `2d`, `2d+`, `+1d6` and `1+d6`, none of which is dice notation (a digit
run, `d`, a digit run, optionally `+` and a digit run): it only requires that
every character is a digit, `d`, `D` or `+`, that there is exactly one `d`,
at most one `+`, and that the string does not begin with `d`.  The strings
are left as they are. -/
theorem is_valid_diceroll_str_accepts_invalid :
    is_valid_diceroll_str "2d".toList = (1, "2d".toList) ∧
    is_valid_diceroll_str "2d+".toList = (1, "2d+".toList) ∧
    is_valid_diceroll_str "+1d6".toList = (1, "+1d6".toList) ∧
    is_valid_diceroll_str "1+d6".toList = (1, "1+d6".toList) := by
  decide

/-- The counting loop of `cmd_calcmod` from its `k`-th iteration on: `i` is
`2 * k + 1` and `modifier` is `k - 5`. -/
theorem calcmod_loop_from (s : Int) (hs : s ≤ Dndml.INT_MAX) (j : Nat) :
    ∀ k : Int, 0 ≤ k → k ≤ s / 2 → (s / 2 - k).toNat = j →
      calcmod_loop s (2 * k + 1) (k - 5) = some (s / 2 - 5) := by
  unfold Dndml.INT_MAX at hs
  induction j with
  | zero =>
    intro k hk hle hj
    have hk2 : k = s / 2 := by omega
    rw [calcmod_loop, if_neg (by omega)]
    rw [hk2]
  | succ j ih =>
    intro k hk hle hj
    have hlt : 2 * k + 1 < s := by omega
    rw [calcmod_loop, if_pos hlt, if_neg (by unfold Dndml.INT_MAX; omega),
      if_neg (by unfold Dndml.INT_MAX; omega)]
    have := ih (k + 1) (by omega) (by omega) (by omega)
    rw [show 2 * (k + 1) + 1 = 2 * k + 1 + 2 by ring,
      show k + 1 - 5 = k - 5 + 1 by ring] at this
    exact this

/-- C25: for every ability score `s` with `1 ≤ s ≤ INT_MAX` the counting loop
of `cmd_calcmod` ends without an `int` overflow of `i` or of `modifier`, and
the modifier it computes is the floor of `(s - 10) / 2`. -/
theorem calcmod_modifier_floor (s : Int) (h1 : 1 ≤ s) (h2 : s ≤ Dndml.INT_MAX) :
    calcmod_modifier s = some (Int.fdiv (s - 10) 2) ∧
    2 * Int.fdiv (s - 10) 2 ≤ s - 10 ∧ s - 10 < 2 * Int.fdiv (s - 10) 2 + 2 := by
  have hf : Int.fdiv (s - 10) 2 = (s - 10) / 2 := Int.fdiv_eq_ediv _ (by decide)
  rw [hf]
  refine ⟨?_, by omega, by omega⟩
  have := calcmod_loop_from s h2 (s / 2).toNat 0 (Int.le_refl 0) (by omega) (by simp)
  simp only [Int.mul_zero, Int.zero_add, Int.zero_sub] at this
  rw [calcmod_modifier, this]
  congr 1
  omega

/-- Witness of C25: the scores 15 and `INT_MAX`. -/
theorem calcmod_modifier_floor_witness :
    (calcmod_modifier 15 = some (Int.fdiv (15 - 10) 2) ∧
      2 * Int.fdiv (15 - 10) 2 ≤ 15 - 10 ∧ 15 - 10 < 2 * Int.fdiv (15 - 10) 2 + 2) ∧
    (calcmod_modifier Dndml.INT_MAX = some (Int.fdiv (Dndml.INT_MAX - 10) 2) ∧
      2 * Int.fdiv (Dndml.INT_MAX - 10) 2 ≤ Dndml.INT_MAX - 10 ∧
      Dndml.INT_MAX - 10 < 2 * Int.fdiv (Dndml.INT_MAX - 10) 2 + 2) :=
  ⟨calcmod_modifier_floor 15 (by decide) (by decide),
   calcmod_modifier_floor Dndml.INT_MAX (by decide) (by decide)⟩

/-- C26 (the code at the failing inputs): for the message `%roll ` (a
trailing space) `handle_message` counts `margc` = 2 while `strtok` yields the
single token `%roll`, so `margv[1]` is never written although `margc >= 2`;
for the empty message `margc` is 1 and no token is stored at all, so
`margv[0]` is uninitialised; for ` %roll 2d6` (a leading space) `margc` is 3
and two tokens are stored. -/
theorem margc_counts_space_runs :
    (margc_of "%roll ".toList = 2 ∧
      strtok_tokens "%roll ".toList = ["%roll".toList] ∧
      margv_of "%roll ".toList = [some "%roll".toList, none]) ∧
    (margc_of [] = 1 ∧ strtok_tokens [] = [] ∧ margv_of [] = [none]) ∧
    (margc_of " %roll 2d6".toList = 3 ∧
      strtok_tokens " %roll 2d6".toList = ["%roll".toList, "2d6".toList]) := by
  refine ⟨⟨?_, ?_, ?_⟩, ⟨?_, ?_, ?_⟩, ?_, ?_⟩ <;>
    simp [margv_of, margc_of, count_args, strtok_tokens, List.range, List.range.loop]

/-- A die rolled by `random_int(1, faces)` shows a number from 1 to `faces`. -/
theorem random_int_range (r faces : Int) (hr : 0 ≤ r) (hf : 1 ≤ faces) :
    1 ≤ random_int r 1 faces ∧ random_int r 1 faces ≤ faces := by
  unfold random_int
  have hfe : faces - 1 + 1 = faces := by omega
  rw [hfe, Int.tmod_eq_emod hr (by omega)]
  have h1 := Int.emod_nonneg r (show faces ≠ 0 by omega)
  have h2 := Int.emod_lt_of_pos r (show 0 < faces by omega)
  omega

/-- The loop of `roll_dice` adds, for each of the dice still to be rolled, a
number from 1 to `faces`. -/
theorem roll_loop_bounds (rand : Nat → Int) (dice_ct faces : Int) (hf : 1 ≤ faces)
    (hr : ∀ k, 0 ≤ rand k) (n : Nat) :
    ∀ i value : Int, i ≤ dice_ct → (dice_ct - i).toNat = n →
      value + (dice_ct - i) ≤ roll_loop rand dice_ct faces i value ∧
      roll_loop rand dice_ct faces i value ≤ value + (dice_ct - i) * faces := by
  induction n with
  | zero =>
    intro i value hi hn
    have : i = dice_ct := by omega
    rw [roll_loop, if_neg (by omega), this]
    simp
  | succ n ih =>
    intro i value hi hn
    have hlt : i < dice_ct := by omega
    rw [roll_loop, if_pos hlt]
    have hd := random_int_range (rand i.toNat) faces (hr _) hf
    have := ih (i + 1) (value + random_int (rand i.toNat) 1 faces) (by omega) (by omega)
    constructor
    · omega
    · have hmul : (dice_ct - (i + 1)) * faces = (dice_ct - i) * faces - faces := by ring
      rw [hmul] at this
      omega

/-- C27: for every `dice_ct ≥ 0`, `faces ≥ 1` and `modifier`, and every
sequence of non-negative values returned by `rand()`, `roll_dice` returns a
roll that records its three arguments and whose value lies between
`dice_ct + modifier` and `dice_ct * faces + modifier` (integers unbounded: no
`int` overflow); each die, `random_int(1, faces)`, lies between 1 and
`faces`. -/
theorem roll_dice_bounds (rand : Nat → Int) (dice_ct faces modifier : Int)
    (hd : 0 ≤ dice_ct) (hf : 1 ≤ faces) (hr : ∀ k, 0 ≤ rand k) :
    (roll_dice rand dice_ct faces modifier).dice_ct = dice_ct ∧
    (roll_dice rand dice_ct faces modifier).faces = faces ∧
    (roll_dice rand dice_ct faces modifier).modifier = modifier ∧
    dice_ct + modifier ≤ (roll_dice rand dice_ct faces modifier).value ∧
    (roll_dice rand dice_ct faces modifier).value ≤ dice_ct * faces + modifier ∧
    ∀ k, 1 ≤ random_int (rand k) 1 faces ∧ random_int (rand k) 1 faces ≤ faces := by
  refine ⟨rfl, rfl, rfl, ?_, ?_, fun k => random_int_range _ _ (hr k) hf⟩
  · have := (roll_loop_bounds rand dice_ct faces hf hr dice_ct.toNat 0 0 hd (by simp)).1
    simp only [roll_dice]
    omega
  · have := (roll_loop_bounds rand dice_ct faces hf hr dice_ct.toNat 0 0 hd (by simp)).2
    simp only [roll_dice]
    simp only [Int.sub_zero, Int.zero_add] at this
    omega

/-- Witness of C27: two dice of six faces with modifier 1, for the sequence
3, 10, 17, ... of values of `rand()`. -/
theorem roll_dice_bounds_witness :
    (roll_dice (fun k => ((7 * k + 3 : Nat) : Int)) 2 6 1).dice_ct = 2 ∧
    (roll_dice (fun k => ((7 * k + 3 : Nat) : Int)) 2 6 1).faces = 6 ∧
    (roll_dice (fun k => ((7 * k + 3 : Nat) : Int)) 2 6 1).modifier = 1 ∧
    2 + 1 ≤ (roll_dice (fun k => ((7 * k + 3 : Nat) : Int)) 2 6 1).value ∧
    (roll_dice (fun k => ((7 * k + 3 : Nat) : Int)) 2 6 1).value ≤ 2 * 6 + 1 ∧
    ∀ k, 1 ≤ random_int ((fun k => ((7 * k + 3 : Nat) : Int)) k) 1 6 ∧
      random_int ((fun k => ((7 * k + 3 : Nat) : Int)) k) 1 6 ≤ 6 :=
  roll_dice_bounds (fun k => ((7 * k + 3 : Nat) : Int)) 2 6 1 (by decide) (by decide)
    (fun _ => Int.natCast_nonneg _)

end Tryptobot
